import Mathlib

/-!
# Verification of the sui-replay-web-view transaction model

Shallow embedding of the core of `src/sui-replay-web-view/transaction-viewer.js`
(the ByteDecoder, TypeTree normalizer, CommandInference and TransactionAggregator
components) together with theorems settling the frozen claims about it.

JavaScript semantics conventions used throughout the embedding:
* JS `Number` values that the program treats as 32-bit integers (the bitwise
  operators `|`, `&`, `<<`) are modelled with explicit two's-complement
  wrapping at 2^32 (`toInt32`, `js32Or`, `jsShl`), never with native fixed
  width types.
* JS `Number` values used in ordinary arithmetic are IEEE-754 binary64
  doubles; they are modelled as exact rationals together with an explicit
  round-to-nearest-even rounding function (`roundDouble`).
* `x || y` on possibly-absent / null / 0 fields is modelled with `Option`
  plus an explicit zero test where the program relies on `0` being falsy.
* Code that can throw a `TypeError` is modelled in `Except String`.
-/

namespace SuiReplay

set_option maxRecDepth 100000

/-! ## JS 32-bit integer semantics (for the bitwise operators in `readUleb128`) -/

/-- Fuelled binary OR on naturals (least-significant-bit first), used instead of
`Nat.lor` so that proofs and witnesses can evaluate inside the kernel. -/
def natOrAux : Nat → Nat → Nat → Nat
  | 0, _, _ => 0
  | fuel + 1, a, b =>
    (if a % 2 = 1 ∨ b % 2 = 1 then 1 else 0) + 2 * natOrAux fuel (a / 2) (b / 2)

/-- 32-bit binary OR on naturals below 2^32. -/
def natOr32 (a b : Nat) : Nat := natOrAux 32 a b

/-- Reinterpret a natural number below 2^32 as a signed 32-bit value
(two's complement), exactly as JavaScript presents the result of `|`. -/
def int32View (n : Nat) : Int :=
  if n < 2 ^ 31 then (n : Int) else (n : Int) - 2 ^ 32

/-- JS `ToInt32`-then-back-to-unsigned: wrap an unsigned value at 2^32.
The operands we feed it are already unsigned, so this is reduction mod 2^32. -/
def toUint32 (n : Nat) : Nat := n % 2 ^ 32

/-- JS `a << s` for an unsigned `a`: shift count is taken mod 32 and the
result is truncated to 32 bits (we keep the unsigned view; `int32View`
recovers the signed value JS reports). -/
def jsShl (a : Nat) (s : Nat) : Nat := toUint32 (a * 2 ^ (s % 32))

/-! ## ByteDecoder: ULEB128 (`TransactionViewer.readUleb128`)

The source:

```js
readUleb128(bytes, offset = 0) {
    let result = 0; let shift = 0; let byte; let position = offset;
    do {
        if (position >= bytes.length) { return null; }
        byte = bytes[position++];
        result |= (byte & 0x7f) << shift;
        shift += 7;
    } while (byte & 0x80);
    return { value: result, bytesRead: position - offset };
}
```

`result |= x` coerces both sides through `ToInt32`; we carry `result` as an
unsigned 32-bit accumulator and expose the signed (`int32View`) value at the
end, which is exactly the JS `Number` the caller receives.  `byte & 0x7f` is
`byte % 128` and `byte & 0x80` tests `byte / 128 % 2` (bytes are < 256). -/

/-- One step of the `do … while` loop of `readUleb128`, recursing over the
remaining bytes.  Returns `(signed value, bytesRead)` or `none` when the
buffer runs out before the continuation bit clears. -/
def readUleb128Aux : List Nat → Nat → Nat → Nat → Option (Int × Nat)
  | [], _, _, _ => none
  | b :: rest, result, shift, count =>
    let result' := natOr32 result (jsShl (b % 128) shift)
    if b / 128 % 2 = 1 then
      readUleb128Aux rest result' (shift + 7) (count + 1)
    else
      some (int32View result', count + 1)

/-- `TransactionViewer.readUleb128` with `offset = 0`. -/
def readUleb128 (bytes : List Nat) : Option (Int × Nat) :=
  readUleb128Aux bytes 0 0 0

/-- The canonical ULEB128 encoding of `n` (7 low bits per byte, continuation
bit set while more bytes follow), as described by the specification. -/
def uleb128Encode (n : Nat) : List Nat :=
  if h : n < 128 then [n]
  else (n % 128 + 128) :: uleb128Encode (n / 128)
  decreasing_by exact Nat.div_lt_self (by omega) (by norm_num)

/-! ### Arithmetic facts about the 32-bit primitives -/

theorem natOrAux_zero_left : ∀ fuel c, c < 2 ^ fuel → natOrAux fuel 0 c = c := by
  intro fuel
  induction fuel with
  | zero => intro c hc; interval_cases c; rfl
  | succ f ih =>
    intro c hc
    have hpow : (2 : Nat) ^ (f + 1) = 2 * 2 ^ f := by ring
    have hc2 : c / 2 < 2 ^ f := by omega
    have hrec := ih (c / 2) hc2
    simp only [natOrAux, Nat.zero_mod, hrec]
    rcases Nat.mod_two_eq_zero_or_one c with h | h <;> simp [h] <;> omega

/-- Bitwise OR of a value below `2 ^ s` with a multiple of `2 ^ s` is addition
(when everything fits in the available fuel). -/
theorem natOrAux_aligned :
    ∀ s fuel a c, a < 2 ^ s → a + c * 2 ^ s < 2 ^ fuel →
      natOrAux fuel a (c * 2 ^ s) = a + c * 2 ^ s := by
  intro s
  induction s with
  | zero =>
    intro fuel a c ha htot
    interval_cases a
    simpa using natOrAux_zero_left fuel c (by simpa using htot)
  | succ s ih =>
    intro fuel a c ha htot
    match fuel with
    | 0 =>
      rw [pow_zero] at htot
      have ha0 : a = 0 := by omega
      have hX : c * 2 ^ (s + 1) = 0 := by omega
      simp [natOrAux, ha0, hX]
    | fuel + 1 =>
      have hpow : c * 2 ^ (s + 1) = c * 2 ^ s * 2 := by ring
      have heven : c * 2 ^ (s + 1) % 2 = 0 := by omega
      have hdiv : c * 2 ^ (s + 1) / 2 = c * 2 ^ s := by omega
      have ha2 : a / 2 < 2 ^ s := by
        have hp : (2 : Nat) ^ (s + 1) = 2 * 2 ^ s := by ring
        omega
      have htot2 : a / 2 + c * 2 ^ s < 2 ^ fuel := by
        have hp : (2 : Nat) ^ (fuel + 1) = 2 * 2 ^ fuel := by ring
        omega
      have hrec := ih fuel (a / 2) c ha2 htot2
      simp only [natOrAux, heven, hdiv, hrec]
      rcases Nat.mod_two_eq_zero_or_one a with h | h <;> simp [h] <;> omega

theorem natOr32_aligned (s a c : Nat) (ha : a < 2 ^ s) (htot : a + c * 2 ^ s < 2 ^ 32) :
    natOr32 a (c * 2 ^ s) = a + c * 2 ^ s :=
  natOrAux_aligned s 32 a c ha htot

theorem jsShl_of_lt (d s : Nat) (hs : s < 32) (hd : d * 2 ^ s < 2 ^ 32) :
    jsShl d s = d * 2 ^ s := by
  unfold jsShl toUint32
  rw [Nat.mod_eq_of_lt hs, Nat.mod_eq_of_lt hd]

theorem int32View_of_lt (n : Nat) (h : n < 2 ^ 31) : int32View n = (n : Int) := by
  unfold int32View
  rw [if_pos h]

/-! ### Claim C7: ULEB128 round-trip -/

/-- Correctness of `readUleb128Aux` on the canonical encoding of any `n` whose
accumulated value stays below `2 ^ 31` — below the point where JavaScript's
32-bit `|` and `<<` start wrapping. -/
theorem readUleb128Aux_encode :
    ∀ n acc shift count : Nat, ∀ rest : List Nat,
      acc < 2 ^ shift → acc + n * 2 ^ shift < 2 ^ 31 → (1 ≤ n ∨ shift = 0) →
      readUleb128Aux (uleb128Encode n ++ rest) acc shift count
        = some (((acc + n * 2 ^ shift : Nat) : Int), count + (uleb128Encode n).length) := by
  intro n
  induction n using Nat.strong_induction_on with
  | _ n ih =>
    intro acc shift count rest hacc htot hns
    have h31_32 : (2 : Nat) ^ 31 < 2 ^ 32 := by norm_num
    have hshift : shift < 32 := by
      rcases hns with hn | hs
      · by_contra hge
        push_neg at hge
        have h1 : (2 : Nat) ^ 32 ≤ 2 ^ shift := Nat.pow_le_pow_right (by norm_num) hge
        have h2 : (2 : Nat) ^ shift ≤ n * 2 ^ shift := Nat.le_mul_of_pos_left _ hn
        have h3 : n * 2 ^ shift ≤ acc + n * 2 ^ shift := Nat.le_add_left _ _
        omega
      · omega
    have hn31 : n * 2 ^ shift < 2 ^ 31 :=
      lt_of_le_of_lt (Nat.le_add_left _ _) htot
    by_cases h : n < 128
    · -- final byte: continuation bit clear
      rw [uleb128Encode, dif_pos h]
      have hb7 : n % 128 = n := Nat.mod_eq_of_lt h
      have hb8 : n / 128 % 2 = 0 := by omega
      have hshl : jsShl (n % 128) shift = n * 2 ^ shift := by
        rw [hb7]; exact jsShl_of_lt n shift hshift (by omega)
      have hor : natOr32 acc (n * 2 ^ shift) = acc + n * 2 ^ shift :=
        natOr32_aligned shift acc n hacc (by omega)
      simp only [List.cons_append, List.nil_append, readUleb128Aux, hshl, hor, hb8]
      rw [if_neg (by norm_num)]
      rw [int32View_of_lt _ htot]
      simp
    · -- continuation byte
      rw [uleb128Encode, dif_neg h]
      have hb7 : (n % 128 + 128) % 128 = n % 128 := by omega
      have hb8 : (n % 128 + 128) / 128 % 2 = 1 := by omega
      have hmod_le : n % 128 * 2 ^ shift ≤ n * 2 ^ shift :=
        Nat.mul_le_mul_right _ (Nat.mod_le _ _)
      have hlow : n % 128 * 2 ^ shift < 2 ^ 32 := by omega
      have hshl : jsShl ((n % 128 + 128) % 128) shift = n % 128 * 2 ^ shift := by
        rw [hb7]; exact jsShl_of_lt _ shift hshift hlow
      have hor : natOr32 acc (n % 128 * 2 ^ shift) = acc + n % 128 * 2 ^ shift :=
        natOr32_aligned shift acc (n % 128) hacc (by omega)
      simp only [List.cons_append, readUleb128Aux, hshl, hor, hb8]
      rw [if_pos (by trivial), List.append_eq]
      have hdecomp : n % 128 * 2 ^ shift + n / 128 * 2 ^ (shift + 7) = n * 2 ^ shift := by
        have hsplit : n % 128 + 128 * (n / 128) = n := Nat.mod_add_div n 128
        calc n % 128 * 2 ^ shift + n / 128 * 2 ^ (shift + 7)
            = (n % 128 + 128 * (n / 128)) * 2 ^ shift := by ring
          _ = n * 2 ^ shift := by rw [hsplit]
      have hacc' : acc + n % 128 * 2 ^ shift < 2 ^ (shift + 7) := by
        have h1 : n % 128 ≤ 127 := by omega
        have h2 : n % 128 * 2 ^ shift ≤ 127 * 2 ^ shift :=
          Nat.mul_le_mul_right _ h1
        have h3 : (2 : Nat) ^ (shift + 7) = 128 * 2 ^ shift := by ring
        omega
      have htot' : acc + n % 128 * 2 ^ shift + n / 128 * 2 ^ (shift + 7) < 2 ^ 31 := by
        rw [Nat.add_assoc, hdecomp]; exact htot
      have hrec := ih (n / 128) (Nat.div_lt_self (by omega) (by norm_num))
        (acc + n % 128 * 2 ^ shift) (shift + 7) (count + 1) rest hacc' htot'
        (Or.inl (by omega))
      rw [hrec]
      have hfst : acc + n % 128 * 2 ^ shift + n / 128 * 2 ^ (shift + 7)
          = acc + n * 2 ^ shift := by
        rw [Nat.add_assoc, hdecomp]
      rw [hfst]
      simp only [Option.some.injEq, Prod.mk.injEq, List.length_cons]
      exact ⟨trivial, by omega⟩

/-- **C7 (counterexample to the claim as stated).**  The claim quantifies over
all `n ≥ 0`, but `readUleb128` accumulates through JavaScript's 32-bit `|`
and `<<`: decoding the canonical encoding of `2 ^ 31` yields the wrapped
value `-2147483648`, not `2 ^ 31`. -/
theorem readUleb128_wraps_at_2_pow_31 :
    uleb128Encode (2 ^ 31) = [0x80, 0x80, 0x80, 0x80, 0x08] ∧
    readUleb128 [0x80, 0x80, 0x80, 0x80, 0x08] = some (-2147483648, 5) ∧
    (-2147483648 : Int) ≠ ((2 ^ 31 : Nat) : Int) := by
  refine ⟨?_, by decide, by decide⟩
  rw [uleb128Encode]; norm_num
  rw [uleb128Encode]; norm_num
  rw [uleb128Encode]; norm_num
  rw [uleb128Encode]; norm_num
  rw [uleb128Encode]; norm_num

/-- **C7 (amended).**  For every `n < 2 ^ 31`, decoding the canonical ULEB128
encoding of `n` (with any suffix) yields exactly `n` and consumes exactly the
encoding's bytes; in particular `[0x02]` decodes to `2` and `[0x80, 0x01]`
decodes to `128`.  (For `n ≥ 2 ^ 31` the decoder wraps, see the
counterexample.) -/
theorem readUleb128_roundtrip (n : Nat) (h : n < 2 ^ 31) (rest : List Nat) :
    readUleb128 (uleb128Encode n ++ rest)
      = some ((n : Int), (uleb128Encode n).length) := by
  have := readUleb128Aux_encode n 0 0 0 rest (by norm_num) (by simpa using h)
    (by omega)
  simpa [readUleb128] using this

/-- Witness for C7 (amended): the two concrete vectors from the specification. -/
theorem readUleb128_roundtrip_witness :
    readUleb128 [0x02] = some (2, 1) ∧ readUleb128 [0x80, 0x01] = some (128, 2) := by
  constructor
  · have h := readUleb128_roundtrip 2 (by norm_num) []
    have henc : uleb128Encode 2 = [0x02] := by rw [uleb128Encode]; norm_num
    rw [henc] at h
    simpa using h
  · have h := readUleb128_roundtrip 128 (by norm_num) []
    have henc : uleb128Encode 128 = [0x80, 0x01] := by
      rw [uleb128Encode]; norm_num
      rw [uleb128Encode]; norm_num
    rw [henc] at h
    simpa using h

/-! ## JS double-precision arithmetic

`calculateNonRefundableFee` evaluates `Math.floor(storageRebate * (10000 -
rebateRate) / 10000)` on JS `Number`s, i.e. IEEE-754 binary64 values with
round-to-nearest, ties-to-even.  We model a double by its exact rational
value and each arithmetic operation by the exact rational operation followed
by `roundDouble`.  The model covers the normal range (magnitudes between
`2 ^ (-200)` and `2 ^ 200`), which contains every value these computations
can produce from the program's unsigned inputs; `0` is handled exactly. -/

/-- Fuelled most-significant-bit position (`⌊log₂ n⌋` for `n ≥ 1`). -/
def msbAux : Nat → Nat → Nat
  | 0, _ => 0
  | fuel + 1, n => if n ≤ 1 then 0 else msbAux fuel (n / 2) + 1

/-- `⌊log₂ n⌋` for positive `n` (correct below `2 ^ 700`). -/
def natMsb (n : Nat) : Nat := msbAux 700 n

/-- A binary64 value represented exactly: the rational `m * 2 ^ e`.
Doubles are dyadic rationals, so this representation is lossless; the
rounding functions below always produce `|m| ≤ 2 ^ 53`. -/
structure Dbl where
  m : Int
  e : Int
  deriving DecidableEq, Repr

/-- Round the positive rational `(num / den) * 2 ^ e` (with `num, den ≥ 1`)
to the nearest 53-bit significand, ties to even: the mantissa/exponent pair
of the nearest binary64 value.  Correct throughout the normal range, which
covers every value the embedded program can build from its unsigned inputs. -/
def roundFracPos (num den : Nat) (e : Int) : Dbl :=
  let nd : Nat × Nat := if 0 ≤ e then (num * 2 ^ e.toNat, den) else (num, den * 2 ^ (-e).toNat)
  let E : Int := (natMsb (nd.1 * 2 ^ 300 / nd.2) : Int) - 300
  let shift : Int := 52 - E
  let ab : Nat × Nat :=
    if 0 ≤ shift then (nd.1 * 2 ^ shift.toNat, nd.2) else (nd.1, nd.2 * 2 ^ (-shift).toNat)
  let q := ab.1 / ab.2
  let r := ab.1 % ab.2
  let m := if 2 * r < ab.2 then q else if ab.2 < 2 * r then q + 1
           else if q % 2 = 0 then q else q + 1
  ⟨m, E - 52⟩

/-- IEEE-754 binary64 rounding (round to nearest, ties to even) of the exact
rational `(num / den) * 2 ^ e`, as performed by every JS arithmetic operator. -/
def roundFrac (num den : Int) (e : Int) : Dbl :=
  let n := if den < 0 then -num else num
  let d := if den < 0 then -den else den
  if n = 0 then ⟨0, 0⟩
  else if n < 0 then
    let r := roundFracPos (-n).toNat d.toNat e
    ⟨-r.m, r.e⟩
  else roundFracPos n.toNat d.toNat e

/-- The double obtained by parsing an unsigned integer literal (JSON parse
rounds it to the nearest binary64). -/
def dblOfNat (n : Nat) : Dbl := roundFrac (n : Int) 1 0

/-- JS `a - b` on doubles: exact difference, then one rounding. -/
def dblSub (a b : Dbl) : Dbl :=
  let emin := min a.e b.e
  roundFrac (a.m * 2 ^ (a.e - emin).toNat - b.m * 2 ^ (b.e - emin).toNat) 1 emin

/-- JS `a * b` on doubles: exact product, then one rounding. -/
def dblMul (a b : Dbl) : Dbl := roundFrac (a.m * b.m) 1 (a.e + b.e)

/-- JS `a / b` on doubles: exact quotient, then one rounding. -/
def dblDiv (a b : Dbl) : Dbl := roundFrac a.m b.m (a.e - b.e)

/-- JS `Math.floor` on a double, as an exact integer (the floor of a binary64
value is always itself exactly representable). -/
def dblFloor (a : Dbl) : Int :=
  if 0 ≤ a.e then a.m * 2 ^ a.e.toNat else a.m / 2 ^ (-a.e).toNat

/-- JS truthiness of a number: `0` is falsy, everything else truthy. -/
def Dbl.truthy (a : Dbl) : Bool := a.m ≠ 0

/-! ## String helpers (`TransactionViewer.normalizeAddress` and friends) -/

/-- ASCII lower-casing of one character (JS `toLowerCase` on the identifiers
the program handles, which are ASCII). -/
def lowerChar (c : Char) : Char :=
  if 'A' ≤ c ∧ c ≤ 'Z' then Char.ofNat (c.toNat + 32) else c

/-- JS `s.toLowerCase()` for ASCII strings. -/
def toLower (s : String) : String := String.mk (s.toList.map lowerChar)

/-- Drop the leading `'0'` characters (JS `replace(/^0+/, '')`). -/
def stripZeros : List Char → List Char
  | [] => []
  | c :: rest => if c = '0' then stripZeros rest else c :: rest

/-- `TransactionViewer.normalizeAddress`: strip an optional `0x` prefix,
strip leading zeros, treat the empty remainder as `"0"`, re-add `0x`. -/
def normalizeAddress (address : String) : String :=
  let addr :=
    match address.toList with
    | '0' :: 'x' :: rest => rest
    | l => l
  let stripped := stripZeros addr
  let addr2 := if stripped.isEmpty then ['0'] else stripped
  String.mk ('0' :: 'x' :: addr2)

/-- Strip a `0x` prefix if present (the `startsWith('0x') ? slice(2) : …`
idiom used by `MoveType.fromTypeStructure`). -/
def stripHexPrefix (s : String) : String :=
  match s.toList with
  | '0' :: 'x' :: rest => String.mk rest
  | _ => s

/-- Hex rendering of one byte, two lowercase digits
(JS `b.toString(16).padStart(2, '0')`). -/
def hexDigit (n : Nat) : Char :=
  if n < 10 then Char.ofNat (48 + n) else Char.ofNat (87 + n)

def hexByte (b : Nat) : List Char := [hexDigit (b / 16 % 16), hexDigit (b % 16)]

/-- JS `bytes.map(b => b.toString(16).padStart(2, '0')).join('')`. -/
def bytesToHex (bytes : List Nat) : String :=
  String.mk (bytes.flatMap hexByte)

/-! ## TypeTree inputs

A typed model of the “raw type JSON” shapes the program receives in its
well-formed artifacts.  Each constructor corresponds to one JSON encoding
dispatched on by `MoveType.fromTypeStructure` / `convertPureValue`; the
`other` constructor stands for any unrecognized shape.  (Claim C8, about
arbitrary — including malformed — JSON, uses the untyped `JsVal` model
further below instead.) -/

inductive TypeIn where
  /-- a bare string, e.g. `"U8"` -/
  | str (s : String)
  /-- an object with a single primitive key, e.g. `{U8: …}`; the key is kept
  verbatim because the dispatch tables treat `u8` and `U8` differently -/
  | prim (key : String)
  /-- `{vector: T}` / `{Vector: T}` -/
  | vector (t : TypeIn)
  /-- `{Reference: T}` -/
  | reference (t : TypeIn)
  /-- `{MutableReference: T}` -/
  | mutRef (t : TypeIn)
  /-- `{struct: {address, module, name, type_args}}` (lowercase) -/
  | strct (address mod name : String) (typeArgs : List TypeIn)
  /-- `{Struct: [[address, module, name, typeParams]]}` -/
  | structCap (address mod name : String)
  /-- `{Datatype: [address, module, name, typeParams]}` -/
  | datatype (address mod name : String) (typeParams : List TypeIn)
  /-- `{DatatypeInstantiation: [[address, module, name, typeParams], typeArgs]}` -/
  | datatypeInst (address mod name : String) (typeParams typeArgs : List TypeIn)
  /-- cache-format `{address, module, name, type_args}` with no wrapper key -/
  | direct (address mod name : String) (typeArgs : List TypeIn)
  /-- `{TypeParameter: i}` -/
  | typeParameter (i : Nat)
  /-- any other shape -/
  | other

/-- The canonical `MoveType` class: package / module / name / typeArgs /
isPrimitive plus the two reference flags set after construction. -/
inductive MoveType where
  | mk (package : Option String) (mod : Option String) (name : String)
       (typeArgs : List MoveType) (isPrimitive : Bool)
       (isRef : Bool) (isMutRef : Bool)

namespace MoveType

def package : MoveType → Option String | mk p _ _ _ _ _ _ => p
def mod : MoveType → Option String | mk _ m _ _ _ _ _ => m
def name : MoveType → String | mk _ _ n _ _ _ _ => n
def typeArgs : MoveType → List MoveType | mk _ _ _ ts _ _ _ => ts
def isPrimitive : MoveType → Bool | mk _ _ _ _ b _ _ => b
def isRef : MoveType → Bool | mk _ _ _ _ _ r _ => r
def isMutRef : MoveType → Bool | mk _ _ _ _ _ _ r => r

/-- `new MoveType(pkg, module, name, typeArgs, isPrimitive)` (reference flags
start unset). -/
def make (package mod : Option String) (name : String)
    (typeArgs : List MoveType) (isPrimitive : Bool) : MoveType :=
  mk package mod name typeArgs isPrimitive false false

end MoveType

/-- The `primitives` lookup table of `MoveType.fromTypeStructure` (capitalized
keys only). -/
def primitivesMap (key : String) : Option String :=
  if key = "Bool" then some "bool"
  else if key = "U8" then some "u8"
  else if key = "U16" then some "u16"
  else if key = "U32" then some "u32"
  else if key = "U64" then some "u64"
  else if key = "U128" then some "u128"
  else if key = "U256" then some "u256"
  else if key = "Address" then some "address"
  else if key = "Signer" then some "signer"
  else none

/-- The fallback `new MoveType(null, 'unknown', 'unknown', [], false)`. -/
def unknownMoveType : MoveType := MoveType.make none (some "unknown") "unknown" [] false

mutual

/-- `MoveType.fromTypeStructure`, branch for branch.  The `cacheData`
argument of the source is only passed through to recursive calls and never
read, so it is omitted. -/
def fromTypeStructure : TypeIn → MoveType
  | .str s =>
    match primitivesMap s with
    | some p => MoveType.make none none p [] true
    | none => unknownMoveType
  | .prim key =>
    match primitivesMap key with
    | some p => MoveType.make none none p [] true
    | none => unknownMoveType
  | .vector t =>
    MoveType.make none (some "vector") "vector" [fromTypeStructure t] true
  | .reference t =>
    let inner := fromTypeStructure t
    MoveType.mk inner.package inner.mod inner.name inner.typeArgs inner.isPrimitive true false
  | .mutRef t =>
    let inner := fromTypeStructure t
    MoveType.mk inner.package inner.mod inner.name inner.typeArgs inner.isPrimitive false true
  | .strct a m n args =>
    MoveType.make (some (stripHexPrefix a)) (some m) n (fromTypeStructureList args) false
  | .structCap a m n =>
    MoveType.make (some (stripHexPrefix a)) (some m) n [] false
  | .datatypeInst a m n _ args =>
    MoveType.make (some (stripHexPrefix a)) (some m) n (fromTypeStructureList args) false
  | .datatype a m n _ =>
    MoveType.make (some (stripHexPrefix a)) (some m) n [] false
  | .direct a m n args =>
    MoveType.make (some (stripHexPrefix a)) (some m) n (fromTypeStructureList args) false
  | .typeParameter _ => unknownMoveType
  | .other => unknownMoveType

def fromTypeStructureList : List TypeIn → List MoveType
  | [] => []
  | t :: rest => fromTypeStructure t :: fromTypeStructureList rest

end

/-! ## ByteDecoder: fixed-width primitives, vectors and `Option`
(`TransactionViewer.convertPureValue` and friends) -/

/-- The JS values the decoder produces: booleans, small `Number`s (u8–u32),
`BigInt`s (u64–u256), strings (addresses and option renderings) and arrays
(vectors). -/
inductive PureVal where
  | bool (b : Bool)
  | num (n : Nat)
  | big (n : Nat)
  | str (s : String)
  | arr (elems : List PureVal)

mutual

/-- JS template-literal stringification `${value}` of a decoded value
(arrays stringify as their comma-joined elements). -/
def pvToString : PureVal → String
  | .bool b => if b then "true" else "false"
  | .num n => toString n
  | .big n => toString n
  | .str s => s
  | .arr l => pvListToString l

def pvListToString : List PureVal → String
  | [] => ""
  | [v] => pvToString v
  | v :: rest => pvToString v ++ "," ++ pvListToString rest

end

/-- Little-endian value of a byte list. -/
def leVal : List Nat → Nat
  | [] => 0
  | b :: rest => b + 256 * leVal rest

/-- `TransactionViewer.bytesToU64`: little-endian BigInt of the first
`min(8, length)` bytes. -/
def bytesToU64 (bytes : List Nat) : Nat := leVal (bytes.take 8)

/-- `convertBool`: 1 byte, nonzero means true; fails on an empty buffer. -/
def convertBool (bytes : List Nat) : Option PureVal :=
  match bytes with
  | [] => none
  | b :: _ => some (.bool (b ≠ 0))

/-- `convertU8`: 1 byte. -/
def convertU8 (bytes : List Nat) : Option PureVal :=
  match bytes with
  | [] => none
  | b :: _ => some (.num b)

/-- `convertU16`: 2 bytes little-endian.  The source computes
`bytes[0] | (bytes[1] << 8)`; both operands are below `2 ^ 16` with disjoint
bits, so the 32-bit OR is exactly this sum. -/
def convertU16 (bytes : List Nat) : Option PureVal :=
  if bytes.length < 2 then none else some (.num (leVal (bytes.take 2)))

/-- `convertU32`: 4 bytes little-endian; the `>>> 0` in the source
reinterprets the 32-bit OR as unsigned, which is exactly this sum. -/
def convertU32 (bytes : List Nat) : Option PureVal :=
  if bytes.length < 4 then none else some (.num (leVal (bytes.take 4)))

/-- `convertU64`: 8 bytes little-endian as BigInt. -/
def convertU64 (bytes : List Nat) : Option PureVal :=
  if bytes.length < 8 then none else some (.big (bytesToU64 bytes))

/-- `convertU128`: 16 bytes little-endian as BigInt. -/
def convertU128 (bytes : List Nat) : Option PureVal :=
  if bytes.length < 16 then none else some (.big (leVal (bytes.take 16)))

/-- `convertU256`: 32 bytes little-endian as BigInt. -/
def convertU256 (bytes : List Nat) : Option PureVal :=
  if bytes.length < 32 then none else some (.big (leVal (bytes.take 32)))

/-- `convertAddress`: requires at least 32 bytes, renders all supplied bytes
as `0x`-prefixed lowercase hex. -/
def convertAddress (bytes : List Nat) : Option PureVal :=
  if bytes.length < 32 then none else some (.str ("0x" ++ bytesToHex bytes))

/-- `convertPrimitiveType`: dispatch on the lower-cased type name. -/
def convertPrimitiveType (bytes : List Nat) (typeName : String) : Option PureVal :=
  let n := toLower typeName
  if n = "bool" then convertBool bytes
  else if n = "u8" then convertU8 bytes
  else if n = "u16" then convertU16 bytes
  else if n = "u32" then convertU32 bytes
  else if n = "u64" then convertU64 bytes
  else if n = "u128" then convertU128 bytes
  else if n = "u256" then convertU256 bytes
  else if n = "address" then convertAddress bytes
  else none

/-- `extractElementType`: the element-type name of a vector, from a string or
an object with a primitive key. -/
def extractElementType : TypeIn → Option String
  | .str s => some s
  | .prim key =>
    if key = "u8" ∨ key = "U8" then some "u8"
    else if key = "u16" ∨ key = "U16" then some "u16"
    else if key = "u32" ∨ key = "U32" then some "u32"
    else if key = "u64" ∨ key = "U64" then some "u64"
    else if key = "u128" ∨ key = "U128" then some "u128"
    else if key = "u256" ∨ key = "U256" then some "u256"
    else if key = "bool" ∨ key = "Bool" then some "bool"
    else if key = "address" ∨ key = "Address" then some "address"
    else none
  | _ => none

/-- The element byte-width table of `convertVector`. -/
def elementSizeFor (lowerName : String) : Option Nat :=
  if lowerName = "u8" then some 1
  else if lowerName = "u16" then some 2
  else if lowerName = "u32" then some 4
  else if lowerName = "u64" then some 8
  else if lowerName = "u128" then some 16
  else if lowerName = "u256" then some 32
  else if lowerName = "address" then some 32
  else if lowerName = "bool" then some 1
  else none

/-- The element loop of `convertVector`: `count` elements of width `sz`
starting at `offset`; fails if the buffer is exhausted.  Each slice is decoded
with the fixed-width converter selected by the (already lower-cased) element
name, exactly the per-case `converter` closures of the source. -/
def convertVectorLoop (bytes : List Nat) (lowerName : String) (sz : Nat) :
    Nat → Nat → Option (List PureVal)
  | 0, _ => some []
  | count + 1, offset =>
    if bytes.length < offset + sz then none
    else
      match convertPrimitiveType ((bytes.drop offset).take sz) lowerName with
      | none => none
      | some v =>
        match convertVectorLoop bytes lowerName sz count (offset + sz) with
        | none => none
        | some vs => some (v :: vs)

/-- `convertVector`: ULEB128 length prefix, then `length` fixed-width
elements.  A negative (wrapped) length runs the loop zero times, exactly like
the JS `for` loop. -/
def convertVector (bytes : List Nat) (elementType : String) : Option PureVal :=
  match readUleb128 bytes with
  | none => none
  | some (len, bytesRead) =>
    match elementSizeFor (toLower elementType) with
    | none => none
    | some sz =>
      match convertVectorLoop bytes (toLower elementType) sz len.toNat bytesRead with
      | none => none
      | some elems => some (.arr elems)

/-- `isOptionType`: a `Datatype`/`DatatypeInstantiation` naming
`0x1::option::Option` (address compared after normalization). -/
def isOptionType : TypeIn → Bool
  | .datatype a m n _ => normalizeAddress a = "0x1" ∧ m = "option" ∧ n = "Option"
  | .datatypeInst a m n _ _ => normalizeAddress a = "0x1" ∧ m = "option" ∧ n = "Option"
  | _ => false

/-- `convertPureValue`.  The `Option` branch of the source delegates to
`convertOption`, whose body is inlined here so that the recursion is
structural on the type tree; `convertOption` below is the standalone function
and `convertPureValue_option` proves the two agree. -/
def convertPureValue : List Nat → TypeIn → Option PureVal
  | [], _ => none
  | bytes, .str s => convertPrimitiveType bytes s
  | b :: rest, .datatype a m n tp =>
    if normalizeAddress a = "0x1" ∧ m = "option" ∧ n = "Option" then
      -- convertOption(bytes, {Datatype: [a, m, n, tp]})
      if b = 0 then some (.str "None")
      else if b = 1 then
        match tp with
        | iT :: _ =>
          match convertPureValue rest iT with
          | some v => some (.str ("Some(" ++ pvToString v ++ ")"))
          | none => some (.str ("Some(0x" ++ bytesToHex rest ++ ")"))
        | [] => some (.str ("Some(0x" ++ bytesToHex rest ++ ")"))
      else some (.str "Invalid Option")
    else none
  | b :: rest, .datatypeInst a m n _ args =>
    if normalizeAddress a = "0x1" ∧ m = "option" ∧ n = "Option" then
      -- convertOption(bytes, {DatatypeInstantiation: [[a, m, n, _], args]})
      if b = 0 then some (.str "None")
      else if b = 1 then
        match args with
        | iT :: _ =>
          match convertPureValue rest iT with
          | some v => some (.str ("Some(" ++ pvToString v ++ ")"))
          | none => some (.str ("Some(0x" ++ bytesToHex rest ++ ")"))
        | [] => some (.str ("Some(0x" ++ bytesToHex rest ++ ")"))
      else some (.str "Invalid Option")
    else none
  | bytes, .vector t =>
    match extractElementType t with
    | some et => convertVector bytes et
    | none => none
  | bytes, .prim key =>
    if key = "bool" ∨ key = "Bool" then convertBool bytes
    else if key = "u8" ∨ key = "U8" then convertU8 bytes
    else if key = "u16" ∨ key = "U16" then convertU16 bytes
    else if key = "u32" ∨ key = "U32" then convertU32 bytes
    else if key = "u64" ∨ key = "U64" then convertU64 bytes
    else if key = "u128" ∨ key = "U128" then convertU128 bytes
    else if key = "u256" ∨ key = "U256" then convertU256 bytes
    else if key = "address" ∨ key = "Address" then convertAddress bytes
    else none
  | _, .reference _ => none
  | _, .mutRef _ => none
  | _, .strct _ _ _ _ => none
  | _, .structCap _ _ _ => none
  | _, .direct _ _ _ _ => none
  | _, .typeParameter _ => none
  | _, .other => none

/-- The inner-type extraction of `convertOption`: the first type argument of
a `DatatypeInstantiation`, else the first type parameter of a `Datatype`. -/
def optionInnerType : TypeIn → Option TypeIn
  | .datatypeInst _ _ _ _ (iT :: _) => some iT
  | .datatypeInst _ _ _ _ [] => none
  | .datatype _ _ _ (iT :: _) => some iT
  | _ => none

/-- `TransactionViewer.convertOption`, standalone: always returns a display
string.  `"None"` for an empty buffer or discriminant `0`, `"Some(…)"` for
discriminant `1` (decoding the remaining bytes as the inner type when it can
be resolved, raw hex otherwise), `"Invalid Option"` for anything else. -/
def convertOption (bytes : List Nat) (t : TypeIn) : String :=
  match bytes with
  | [] => "None"
  | b :: rest =>
    if b = 0 then "None"
    else if b = 1 then
      match optionInnerType t with
      | none => "Some(0x" ++ bytesToHex rest ++ ")"
      | some iT =>
        match convertPureValue rest iT with
        | some v => "Some(" ++ pvToString v ++ ")"
        | none => "Some(0x" ++ bytesToHex rest ++ ")"
    else "Invalid Option"

/-- The inlining in `convertPureValue` is faithful: on a nonempty buffer and
an `Option` type, `convertPureValue` returns exactly the string
`convertOption` produces. -/
theorem convertPureValue_option (b : Nat) (rest : List Nat) (t : TypeIn)
    (h : isOptionType t = true) :
    convertPureValue (b :: rest) t = some (.str (convertOption (b :: rest) t)) := by
  cases t with
  | datatype a m n tp =>
    have h3 : normalizeAddress a = "0x1" ∧ m = "option" ∧ n = "Option" := by
      simpa [isOptionType] using h
    by_cases hb0 : b = 0
    · simp [convertPureValue, convertOption, optionInnerType, h3, hb0]
    · by_cases hb1 : b = 1
      · cases tp with
        | nil => simp [convertPureValue, convertOption, optionInnerType, h3, hb0, hb1]
        | cons iT tl =>
          cases hcv : convertPureValue rest iT with
          | none => simp [convertPureValue, convertOption, optionInnerType, h3, hb0, hb1, hcv]
          | some v => simp [convertPureValue, convertOption, optionInnerType, h3, hb0, hb1, hcv]
      · simp [convertPureValue, convertOption, optionInnerType, h3, hb0, hb1]
  | datatypeInst a m n tp args =>
    have h3 : normalizeAddress a = "0x1" ∧ m = "option" ∧ n = "Option" := by
      simpa [isOptionType] using h
    by_cases hb0 : b = 0
    · simp [convertPureValue, convertOption, optionInnerType, h3, hb0]
    · by_cases hb1 : b = 1
      · cases args with
        | nil => simp [convertPureValue, convertOption, optionInnerType, h3, hb0, hb1]
        | cons iT tl =>
          cases hcv : convertPureValue rest iT with
          | none => simp [convertPureValue, convertOption, optionInnerType, h3, hb0, hb1, hcv]
          | some v => simp [convertPureValue, convertOption, optionInnerType, h3, hb0, hb1, hcv]
      · simp [convertPureValue, convertOption, optionInnerType, h3, hb0, hb1]
  | str s => simp [isOptionType] at h
  | prim k => simp [isOptionType] at h
  | vector t => simp [isOptionType] at h
  | reference t => simp [isOptionType] at h
  | mutRef t => simp [isOptionType] at h
  | strct a m n args => simp [isOptionType] at h
  | structCap a m n => simp [isOptionType] at h
  | direct a m n args => simp [isOptionType] at h
  | typeParameter i => simp [isOptionType] at h
  | other => simp [isOptionType] at h

/-! ### Claims C6 and C10: Option decoding -/

/-- **C6.**  For every `Option` type and nonempty byte buffer, `convertOption`
reads the first byte as a discriminant: `0` yields `"None"`; `1` yields
`"Some(v)"` where `v` is the remaining bytes decoded as the resolved inner
type, falling back to raw hex when the inner type is unresolvable or its
decode fails; any other discriminant yields the `"Invalid Option"` decode
error. -/
theorem convertOption_discriminant (t : TypeIn) (h : isOptionType t = true)
    (b : Nat) (rest : List Nat) :
    (convertOption (0 :: rest) t = "None")
    ∧ (2 ≤ b → convertOption (b :: rest) t = "Invalid Option")
    ∧ (∀ iT v, optionInnerType t = some iT → convertPureValue rest iT = some v →
        convertOption (1 :: rest) t = "Some(" ++ pvToString v ++ ")")
    ∧ (∀ iT, optionInnerType t = some iT → convertPureValue rest iT = none →
        convertOption (1 :: rest) t = "Some(0x" ++ bytesToHex rest ++ ")")
    ∧ (optionInnerType t = none →
        convertOption (1 :: rest) t = "Some(0x" ++ bytesToHex rest ++ ")") := by
  refine ⟨by simp [convertOption], ?_, ?_, ?_, ?_⟩
  · intro hb
    simp only [convertOption]
    rw [if_neg (by omega), if_neg (by omega)]
  · intro iT v hinner hcv
    simp [convertOption, hinner, hcv]
  · intro iT hinner hcv
    simp [convertOption, hinner, hcv]
  · intro hinner
    simp [convertOption, hinner]

/-- Witness for C6 at the specification's concrete vectors: for
`Option<u8>`, bytes `[0]` decode to `None`, bytes `[1, 5]` decode to
`Some(5)`, and bytes `[2]` are an invalid discriminant. -/
theorem convertOption_discriminant_witness :
    isOptionType (TypeIn.datatypeInst "0x1" "option" "Option" [] [.prim "U8"]) = true
    ∧ convertOption [0] (TypeIn.datatypeInst "0x1" "option" "Option" [] [.prim "U8"]) = "None"
    ∧ convertOption [1, 5] (TypeIn.datatypeInst "0x1" "option" "Option" [] [.prim "U8"]) = "Some(5)"
    ∧ convertOption [2] (TypeIn.datatypeInst "0x1" "option" "Option" [] [.prim "U8"])
        = "Invalid Option" := by
  have h : isOptionType (TypeIn.datatypeInst "0x1" "option" "Option" [] [.prim "U8"]) = true := by
    decide
  have h0 := (convertOption_discriminant _ h 2 []).1
  have h2 := (convertOption_discriminant _ h 2 []).2.1 (by norm_num)
  have h1 := (convertOption_discriminant _ h 2 [5]).2.2.1 (.prim "U8") (.num 5) rfl (by rfl)
  refine ⟨h, h0, ?_, h2⟩
  have hpv : pvToString (.num 5) = "5" := by decide
  rw [h1, hpv]
  decide

/-- **C10.**  Decoding an Option value from an empty byte buffer returns
`"None"` — not a decode error — whatever the (inner) type argument is. -/
theorem convertOption_empty (t : TypeIn) : convertOption [] t = "None" := rfl

/-! ## CommandInference (`SplitCoinsCommand` / `MakeMoveVecCommand`)

Typed models of the PTB structures the command parsers consume. -/

/-- Values stored in an ObjectRecord's `version` field: numbers from the
artifacts, or the digest string `processV2ChangedObjects` stores when only an
`ObjectWrite` output state is available. -/
inductive VerVal where
  | num (n : Nat)
  | str (s : String)
  deriving DecidableEq

/-- The `object_type` of an ObjectRecord: a cache `Package` or `MoveObject`
entry, the literal string `'Unknown'` (assigned to records synthesized from
effects), or anything else. -/
inductive ObjType where
  | package
  | moveObject (t : TypeIn)
  | unknownStr
  | otherVal

/-- One entry of the transaction's `_objects` array. -/
structure TxObject where
  object_id : String
  version : Option VerVal
  status : Option String
  source : Option String
  typ : Option String
  object_type : Option ObjType

/-- `Transaction.getObjectMoveType`. -/
def getObjectMoveType (objs : List TxObject) (objectId : String) : Option MoveType :=
  match objs.find? (fun o => o.object_id = objectId) with
  | none => none
  | some obj =>
    match obj.object_type with
    | none => none
    | some .package => some (MoveType.make none none "MovePackage" [] true)
    | some (.moveObject t) => some (fromTypeStructure t)
    | some .unknownStr => none
    | some .otherVal => none

/-- A PTB object argument (`input.Object`). -/
inductive ObjectArg where
  | immOrOwned (oid : String) (version : Nat) (digest : String)
  | shared (oid : String)
  | receiving (oid : String) (version : Nat) (digest : String)
  | otherObj

/-- One PTB input. -/
inductive InputIn where
  | pure (bytes : List Nat)
  | object (oarg : ObjectArg)
  | otherInput

/-- A PTB command argument. -/
inductive ArgIn where
  | gasCoin
  | input (i : Nat)
  | result (i : Nat)
  | nestedResult (i k : Nat)
  | otherArg
  deriving DecidableEq

/-- A resolved call signature from `move_call_info.json` (only
`return_types` is consulted by the inference). -/
structure SignatureIn where
  return_types : Option (List TypeIn)

/-- A raw PTB command as it appears in `transaction_data.json`, with
`_signature` merged in for `MoveCall` (absent and `null` signatures are both
falsy in the source and collapse to `none`). -/
inductive RawCommand where
  | moveCall (package mod fn : String) (typeArguments : List TypeIn)
             (args : List ArgIn) (sig : Option SignatureIn)
  | splitCoins (coin : ArgIn) (amounts : List ArgIn)
  | mergeCoins (target : ArgIn) (sources : List ArgIn)
  | makeMoveVec (typeArg : Option TypeIn) (elements : List ArgIn)
  | transferObjects (objects : List ArgIn) (address : ArgIn)
  | publish
  | upgrade
  | otherCmd

/-- The object id extracted from an object argument
(`ImmOrOwnedObject[0]` / `SharedObject.id` / `Receiving[0]`, else null). -/
def resolveObjectId : ObjectArg → Option String
  | .immOrOwned oid _ _ => some oid
  | .shared oid => some oid
  | .receiving oid _ _ => some oid
  | .otherObj => none

/-- The hard-coded `Coin<SUI>` the source builds for the gas-coin sentinel
(package given as a full-width hex string without `0x`). -/
def suiCoinType : MoveType :=
  MoveType.make
    (some "0000000000000000000000000000000000000000000000000000000000000002")
    (some "coin") "Coin"
    [MoveType.make
      (some "0000000000000000000000000000000000000000000000000000000000000002")
      (some "sui") "SUI" [] false]
    false

/-- The parsed `SplitCoinsCommand`. -/
structure SplitCoinsCommand where
  coin : ArgIn
  amounts : List ArgIn
  coinType : Option MoveType
  typeArgs : List MoveType

/-- `SplitCoinsCommand.fromRawCommand`: the coin type comes from the coin
argument's source object (via the object catalog) or, for the gas-coin
sentinel, is hard-coded to `Coin<SUI>`. -/
def splitCoinsFromRawCommand (coin : ArgIn) (amounts : List ArgIn)
    (objs : List TxObject) (inputs : Option (List InputIn)) : SplitCoinsCommand :=
  let coinType : Option MoveType :=
    match coin with
    | .input i =>
      match inputs with
      | some ins =>
        match ins.get? i with
        | some (.object oarg) =>
          (match resolveObjectId oarg with
           | some oid => if oid ≠ "" then getObjectMoveType objs oid else none
           | none => none)
        | _ => none
      | none => none
    | .gasCoin => some suiCoinType
    | _ => none
  ⟨coin, amounts, coinType, match coinType with | some t => [t] | none => []⟩

/-- The parsed `MakeMoveVecCommand`. -/
structure MakeMoveVecCommand where
  elements : List ArgIn
  elementType : Option MoveType
  typeArgs : List MoveType

/-- `MakeMoveVecCommand.fromRawCommand` specialized to `rawCommands = null`
— exactly the call `_inferTypeFromCommand` makes for a referenced
`MakeMoveVec`.  With no command list, the `Result`/`NestedResult` inference
branches are skipped, so only an explicit type argument produces an element
type. -/
def makeMoveVecFromRawCommandNC (typeArg : Option TypeIn) (elements : List ArgIn) :
    MakeMoveVecCommand :=
  let et : Option MoveType :=
    match typeArg with
    | some t => some (fromTypeStructure t)
    | none => none
  ⟨elements, et, match et with | some t => [t] | none => []⟩

/-- `MakeMoveVecCommand._inferTypeFromCommand`: the return type of a
referenced command — a `MoveCall`'s signature return type, a `SplitCoins`'
resolved coin type, or `vector<T>` for a `MakeMoveVec` (re-parsed with a
`null` command list, so only its explicit element type is available);
anything else resolves to null. -/
def inferTypeFromCommand (previousCmd : Option RawCommand) (resultIndex : Nat)
    (objs : List TxObject) (inputs : Option (List InputIn)) : Option MoveType :=
  match previousCmd with
  | none => none
  | some cmd =>
    match cmd with
    | .moveCall _ _ _ _ _ sig =>
      match sig with
      | some s =>
        match s.return_types with
        | some rts =>
          match rts.get? resultIndex with
          | some rt => some (fromTypeStructure rt)
          | none => none
        | none => none
      | none => none
    | .splitCoins coin amounts =>
      (splitCoinsFromRawCommand coin amounts objs inputs).coinType
    | .makeMoveVec typeArg elements =>
      match (makeMoveVecFromRawCommandNC typeArg elements).elementType with
      | some et => some (MoveType.make none (some "vector") "vector" [et] true)
      | none => none
    | _ => none

/-- `MakeMoveVecCommand.fromRawCommand` (general form): explicit element type
if given, otherwise inference from the first element when it is a
`Result`/`NestedResult` reference and a command list is available. -/
def makeMoveVecFromRawCommand (typeArg : Option TypeIn) (elements : List ArgIn)
    (objs : List TxObject) (inputs : Option (List InputIn))
    (rawCommands : Option (List RawCommand)) : MakeMoveVecCommand :=
  let et : Option MoveType :=
    match typeArg with
    | some t => some (fromTypeStructure t)
    | none =>
      match elements with
      | [] => none
      | firstElem :: _ =>
        match firstElem, rawCommands with
        | .result i, some rcs => inferTypeFromCommand (rcs.get? i) 0 objs inputs
        | .nestedResult i k, some rcs => inferTypeFromCommand (rcs.get? i) k objs inputs
        | _, _ => none
  ⟨elements, et, match et with | some t => [t] | none => []⟩

/-- The general parser at `rawCommands = null` coincides with the
specialized `makeMoveVecFromRawCommandNC` used inside the inference — the
split into two definitions is faithful to the single source function. -/
theorem makeMoveVecFromRawCommand_none (typeArg : Option TypeIn)
    (elements : List ArgIn) (objs : List TxObject) (inputs : Option (List InputIn)) :
    makeMoveVecFromRawCommand typeArg elements objs inputs none
      = makeMoveVecFromRawCommandNC typeArg elements := by
  cases typeArg with
  | some t => rfl
  | none =>
    cases elements with
    | nil => rfl
    | cons firstElem rest =>
      cases firstElem <;> rfl

/-! ### Claim C5: MakeMoveVec element-type inference -/

/-- The `vector<T>` node the inference produces. -/
def vecOf (t : MoveType) : MoveType :=
  MoveType.make none (some "vector") "vector" [t] true

/-- The resolution algorithm as the specification states it: the return type
of command `i` (result `resultIndex`), recursing through referenced
`SplitCoins`/`MakeMoveVec` commands as needed (a `MakeMoveVec`'s return type
is `vector<ElementType>`, with `ElementType` itself resolved recursively).
Fuelled by the command-list length, which bounds every chain of backward
references. -/
def specResolveReturnType (rcs : List RawCommand) (objs : List TxObject)
    (inputs : Option (List InputIn)) :
    Nat → Nat → Nat → Option MoveType
  | 0, _, _ => none
  | fuel + 1, i, resultIndex =>
    match rcs.get? i with
    | none => none
    | some (.moveCall _ _ _ _ _ sig) =>
      match sig with
      | some s =>
        match s.return_types with
        | some rts =>
          match rts.get? resultIndex with
          | some rt => some (fromTypeStructure rt)
          | none => none
        | none => none
      | none => none
    | some (.splitCoins coin amounts) =>
      (splitCoinsFromRawCommand coin amounts objs inputs).coinType
    | some (.makeMoveVec typeArg elements) =>
      let et : Option MoveType :=
        match typeArg with
        | some t => some (fromTypeStructure t)
        | none =>
          match elements with
          | (ArgIn.result j) :: _ => specResolveReturnType rcs objs inputs fuel j 0
          | (ArgIn.nestedResult j k) :: _ => specResolveReturnType rcs objs inputs fuel j k
          | _ => none
      match et with
      | some e => some (vecOf e)
      | none => none
    | some _ => none

/-- The element type of a `MakeMoveVec`, per the specification's rule:
explicit type if given, else the recursively resolved return type of the
first element's referenced command. -/
def specElementType (rcs : List RawCommand) (objs : List TxObject)
    (inputs : Option (List InputIn)) (typeArg : Option TypeIn)
    (elements : List ArgIn) : Option MoveType :=
  match typeArg with
  | some t => some (fromTypeStructure t)
  | none =>
    match elements with
    | (ArgIn.result j) :: _ => specResolveReturnType rcs objs inputs rcs.length j 0
    | (ArgIn.nestedResult j k) :: _ => specResolveReturnType rcs objs inputs rcs.length j k
    | _ => none

def ex5Inputs : List InputIn := [.pure [100]]

/-- `SplitCoins(GasCoin, …)`, then a `MakeMoveVec` over its result, then a
`MakeMoveVec` over *that* result — a two-level chain. -/
def ex5Cmds : List RawCommand :=
  [.splitCoins .gasCoin [.input 0],
   .makeMoveVec none [.nestedResult 0 0],
   .makeMoveVec none [.result 1]]

/-- **C5 (counterexample to the claim as stated).**  The claim says the
element type is resolved by *recursively* chaining through
SplitCoins/MakeMoveVec.  But `_inferTypeFromCommand` re-parses a referenced
`MakeMoveVec` with a `null` command list, so a chain
`MakeMoveVec → MakeMoveVec → SplitCoins` resolves to nothing where the
specification's recursive resolution yields `vector<Coin<SUI>>`. -/
theorem makeMoveVec_chain_counterexample :
    (makeMoveVecFromRawCommand none [ArgIn.result 1] [] (some ex5Inputs)
        (some ex5Cmds)).elementType = none
    ∧ specElementType ex5Cmds [] (some ex5Inputs) none [ArgIn.result 1]
        = some (vecOf suiCoinType)
    ∧ (none : Option MoveType) ≠ some (vecOf suiCoinType) := by
  refine ⟨rfl, rfl, by simp⟩

/-- **C5 (amended).**  For a `MakeMoveVec` with no explicit element type whose
first element references a prior command's result: a referenced `SplitCoins`
contributes its resolved coin type; a referenced `MakeMoveVec` *with an
explicit element type* `T` contributes `vector<T>`; a referenced
`MakeMoveVec` that itself needs result-reference inference contributes
nothing (the re-parse gets a null command list).  Concretely, a `MakeMoveVec`
whose sole element is `NestedResult(0,0)` referencing a `SplitCoins` at index
0 resolves its element type to that `SplitCoins`' coin type (`Coin<SUI>` for
the gas coin), and a command referencing a `MakeMoveVec` with explicit
element type `T` resolves `vector<T>`. -/
theorem makeMoveVec_infer_amended :
    (∀ (rcs : List RawCommand) (objs : List TxObject) (inputs : Option (List InputIn))
        (i k : Nat) (coin : ArgIn) (amounts rest : List ArgIn),
      rcs.get? i = some (.splitCoins coin amounts) →
      (makeMoveVecFromRawCommand none (ArgIn.nestedResult i k :: rest) objs inputs
          (some rcs)).elementType
        = (splitCoinsFromRawCommand coin amounts objs inputs).coinType)
    ∧ (∀ (rcs : List RawCommand) (objs : List TxObject) (inputs : Option (List InputIn))
        (i : Nat) (rest : List ArgIn) (t : TypeIn) (els : List ArgIn),
      rcs.get? i = some (.makeMoveVec (some t) els) →
      (makeMoveVecFromRawCommand none (ArgIn.result i :: rest) objs inputs
          (some rcs)).elementType
        = some (vecOf (fromTypeStructure t)))
    ∧ (∀ (rcs : List RawCommand) (objs : List TxObject) (inputs : Option (List InputIn))
        (i : Nat) (rest : List ArgIn) (els : List ArgIn),
      rcs.get? i = some (.makeMoveVec none els) →
      (makeMoveVecFromRawCommand none (ArgIn.result i :: rest) objs inputs
          (some rcs)).elementType = none)
    ∧ (makeMoveVecFromRawCommand none [ArgIn.nestedResult 0 0] [] (some ex5Inputs)
        (some [.splitCoins .gasCoin [.input 0]])).elementType = some suiCoinType := by
  refine ⟨?_, ?_, ?_, rfl⟩
  · intro rcs objs inputs i k coin amounts rest h
    rw [List.get?_eq_getElem?] at h
    simp [makeMoveVecFromRawCommand, inferTypeFromCommand, h]
  · intro rcs objs inputs i rest t els h
    rw [List.get?_eq_getElem?] at h
    simp [makeMoveVecFromRawCommand, inferTypeFromCommand, h,
      makeMoveVecFromRawCommandNC, vecOf]
  · intro rcs objs inputs i rest els h
    rw [List.get?_eq_getElem?] at h
    simp [makeMoveVecFromRawCommand, inferTypeFromCommand, h,
      makeMoveVecFromRawCommandNC]

/-- Witness for C5 (amended): the claim's concrete chain — the sole element
`NestedResult(0,0)` references `SplitCoins(GasCoin, …)` at index 0, and the
element type resolves to `Coin<SUI>`. -/
theorem makeMoveVec_infer_amended_witness :
    (makeMoveVecFromRawCommand none [ArgIn.nestedResult 0 0] [] (some ex5Inputs)
        (some ex5Cmds)).elementType = some suiCoinType := by
  have h := makeMoveVec_infer_amended.1 ex5Cmds [] (some ex5Inputs) 0 0
    .gasCoin [.input 0] [] rfl
  rw [h]
  rfl

/-! ## TransactionAggregator (`class Transaction`)

Typed models of the five artifacts and the loader methods, in their fixed
ingestion order.  JS `x || null` on strings/numbers is modelled by
`strOrNull`/`natOrNull`/`dblOrNull` (empty string and `0` are falsy); on
objects and arrays the typed `Option` already captures it (`{}` and `[]` are
truthy in JS, hence `some` values pass through). -/

def strOrNull (x : Option String) : Option String :=
  match x with
  | some s => if s = "" then none else some s
  | none => none

def natOrNull (x : Option Nat) : Option Nat :=
  match x with
  | some 0 => none
  | v => v

def dblOrNull (x : Option Dbl) : Option Dbl :=
  match x with
  | some v => if v.m = 0 then none else some v
  | none => none

/-- JS `x || d` on a number field with default `d`. -/
def dblOr (x : Option Dbl) (d : Dbl) : Dbl :=
  match x with
  | some v => if v.m = 0 then d else v
  | none => d

/-- The transaction `kind` (only `ProgrammableTransaction` is inspected). -/
inductive KindIn where
  | progTx (inputs : List InputIn) (commands : List RawCommand)
  | otherKind

/-- One entry of `gas_data.per_object_breakup`. -/
structure PerObjectBreakup where
  object_id : String
  size : Dbl
  storage_cost : Dbl
  storage_rebate : Dbl
  non_refundable_fee : Int
  deriving DecidableEq

/-- The transaction's unified `gas_data` record. -/
structure GasDataM where
  payment : Option (List (String × Nat × String))
  owner : Option String
  price : Option String
  budget : Option String
  computation_cost : Option Dbl
  storage_cost : Option Dbl
  storage_rebate : Option Dbl
  non_refundable_fee : Option Dbl
  gas_used : Option Dbl
  reference_gas_price : Option Dbl
  storage_gas_price : Option Dbl
  rebate_rate : Option Dbl
  coins : List String
  per_object_breakup : List PerObjectBreakup

/-- `gas_data` as initialized by the `Transaction` constructor. -/
def emptyGasData : GasDataM :=
  ⟨none, none, none, none, none, none, none, none, none, none, none, none, [], []⟩

/-- The `Transaction` aggregate (the fields the embedded methods read or
write; presentation-only fields are omitted). -/
structure TransactionM where
  digest : Option String
  sender : Option String
  epoch : Option Nat
  checkpoint : Option Nat
  protocol_version : Option Nat
  network : Option String
  status : Option String
  expiration : Option String
  kind : Option KindIn
  gas_data : GasDataM
  deps : List String
  changed_objects : List String
  objects : List TxObject

/-- `new Transaction()`. -/
def newTransaction : TransactionM :=
  ⟨none, none, none, none, none, none, none, none, none, emptyGasData, [], [], []⟩

/-! ### `loadReplayCacheSummary` -/

structure CacheEntry where
  object_id : String
  version : Option Nat
  object_type : Option ObjType

structure CacheIn where
  epoch_id : Option Nat
  checkpoint : Option Nat
  protocol_version : Option Nat
  network : Option String
  cache_entries : Option (List CacheEntry)

/-- The ObjectRecord seeded from one cache entry: no status, no source. -/
def cacheSeedRec (e : CacheEntry) : TxObject :=
  { object_id := e.object_id, version := e.version.map VerVal.num,
    status := none, source := none, typ := none,
    object_type := e.object_type }

def loadReplayCacheSummary (tx : TransactionM) (json : CacheIn) : TransactionM :=
  let tx := { tx with
    epoch := natOrNull json.epoch_id,
    checkpoint := natOrNull json.checkpoint,
    protocol_version := natOrNull json.protocol_version,
    network := strOrNull json.network }
  match json.cache_entries with
  | some entries =>
    { tx with objects := tx.objects ++ entries.map cacheSeedRec }
  | none => tx

/-! ### `loadTransactionData` and object sources -/

structure GasDataIn where
  payment : Option (List (String × Nat × String))
  owner : Option String
  price : Option String
  budget : Option String

structure TxDataV1 where
  sender : Option String
  expiration : Option String
  kind : Option KindIn
  gas_data : Option GasDataIn

structure TransactionDataIn where
  V1 : Option TxDataV1

/-- `Transaction.getInputObjects`: object ids of the PTB's object inputs plus
the package ids of its MoveCall commands (the JS `Set` is used only for
membership, so a list with `contains` is an exact model). -/
def getInputObjects (tx : TransactionM) : List String :=
  let fromInputs :=
    match tx.kind with
    | some (.progTx inputs _) =>
      inputs.filterMap (fun input =>
        match input with
        | .object oarg => resolveObjectId oarg
        | _ => none)
    | _ => []
  let fromCommands :=
    match tx.kind with
    | some (.progTx _ commands) =>
      commands.filterMap (fun cmd =>
        match cmd with
        | .moveCall pkg _ _ _ _ _ => if pkg ≠ "" then some pkg else none
        | _ => none)
    | _ => []
  fromInputs ++ fromCommands

/-- `Transaction.getGasPaymentObjects`: the first component of every gas
payment tuple. -/
def getGasPaymentObjects (tx : TransactionM) : List String :=
  match tx.gas_data.payment with
  | some l => l.map (fun p => p.1)
  | none => []

/-- The source rule shared by `_populateObjectSources` and
`_updateObjectStatusAndSource`. -/
def computeSource (gasObjects inputObjects : List String) (oid : String) : String :=
  if gasObjects.contains oid then "Gas"
  else if inputObjects.contains oid then "Input"
  else "Runtime"

/-- `Transaction._populateObjectSources`. -/
def populateObjectSources (tx : TransactionM) : TransactionM :=
  let inputObjects := getInputObjects tx
  let gasObjects := getGasPaymentObjects tx
  { tx with objects := tx.objects.map (fun o =>
      { o with source := some (computeSource gasObjects inputObjects o.object_id) }) }

/-- `Transaction.loadTransactionData`. -/
def loadTransactionData (tx : TransactionM) (json : TransactionDataIn) : TransactionM :=
  let v1 := json.V1
  let gasData : Option GasDataIn := v1.bind (·.gas_data)
  let payment : Option (List (String × Nat × String)) := gasData.bind (·.payment)
  let gd := { tx.gas_data with
    payment := payment,
    owner := strOrNull (gasData.bind (·.owner)),
    price := strOrNull (gasData.bind (·.price)),
    budget := strOrNull (gasData.bind (·.budget)),
    coins :=
      match payment with
      | some l => l.map (fun p => p.1)
      | none => tx.gas_data.coins }
  let tx := { tx with
    sender := strOrNull (v1.bind (·.sender)),
    expiration := strOrNull (v1.bind (·.expiration)),
    kind := v1.bind (·.kind),
    gas_data := gd }
  populateObjectSources tx

/-! ### `loadTransactionEffects` (V1 and V2 shapes) -/

inductive OutState where
  | objectWrite (digest : String)
  | otherOut

inductive InState where
  | exist (version : Nat) (digest : String)
  | otherIn

structure ChangeInfo where
  id_operation : String
  output_state : Option OutState
  input_state : Option InState

/-- The V1 effects body.  `created`/`mutated` entries are
`[[objectId, version, _digest], _owner]` and `deleted` entries are
`[objectId, version, _digest]`; the ignored digest and owner components are
dropped from the model. -/
structure EffV1 where
  status : Option String
  executed_epoch : Option Nat
  dependencies : Option (List String)
  transaction_digest : Option String
  created : Option (List (String × Nat))
  mutated : Option (List (String × Nat))
  deleted : Option (List (String × Nat))

structure EffV2 where
  status : Option String
  executed_epoch : Option Nat
  dependencies : Option (List String)
  transaction_digest : Option String
  changed_objects : Option (List (String × ChangeInfo))

structure EffectsDoc where
  V1 : Option EffV1
  V2 : Option EffV2

/-- The V2 `id_operation` → status mapping (`Created`/`Deleted`/`None`;
anything else leaves the status `null`). -/
def statusOfOp (op : String) : Option String :=
  if op = "Created" then some "Created"
  else if op = "Deleted" then some "Deleted"
  else if op = "None" then some "Modified"
  else none

/-- Replace the first element satisfying `p` (the JS `find`-then-mutate
idiom). -/
def updateFirst (p : α → Bool) (f : α → α) : List α → List α
  | [] => []
  | x :: rest => if p x then f x :: rest else x :: updateFirst p f rest

/-- The version `processV2ChangedObjects` stores on a synthesized record:
the `ObjectWrite` digest if present (a string — the source comments that this
is really a digest), overridden by the `Exist` input version. -/
def v2SynthVersion (info : ChangeInfo) : Option VerVal :=
  let v : Option VerVal :=
    match info.output_state with
    | some (.objectWrite d) => some (.str d)
    | _ => none
  match info.input_state with
  | some (.exist ver _) => some (.num ver)
  | _ => v

/-- One iteration of the `processV2ChangedObjects` forEach. -/
def processV2Step (acc : List TxObject × List String) (entry : String × ChangeInfo) :
    List TxObject × List String :=
  let objectId := entry.1
  let info := entry.2
  let st := statusOfOp info.id_operation
  let changed := acc.2 ++ [objectId]
  if acc.1.any (fun o => o.object_id = objectId) then
    (updateFirst (fun o => o.object_id = objectId) (fun o => { o with status := st }) acc.1,
     changed)
  else if st = some "Created" then
    (acc.1 ++ [{ object_id := objectId, version := v2SynthVersion info,
                 status := st, source := some "Runtime", typ := none,
                 object_type := some .unknownStr }],
     changed)
  else (acc.1, changed)

/-- `Transaction.processV2ChangedObjects`. -/
def processV2ChangedObjects (objs : List TxObject) (changed : List String)
    (entries : List (String × ChangeInfo)) : List TxObject × List String :=
  entries.foldl processV2Step (objs, changed)

/-- One iteration of the V1 `created` forEach. -/
def processV1CreatedStep (acc : List TxObject × List String) (entry : String × Nat) :
    List TxObject × List String :=
  let objectId := entry.1
  let changed := acc.2 ++ [objectId]
  if acc.1.any (fun o => o.object_id = objectId) then
    (updateFirst (fun o => o.object_id = objectId)
      (fun o => { o with status := some "Created" }) acc.1, changed)
  else
    (acc.1 ++ [{ object_id := objectId, version := some (.num entry.2),
                 status := some "Created", source := some "Runtime", typ := none,
                 object_type := some .unknownStr }],
     changed)

/-- One iteration of the V1 `mutated`/`deleted` forEach (update-only). -/
def processV1MarkStep (st : String) (acc : List TxObject × List String)
    (entry : String × Nat) : List TxObject × List String :=
  let objectId := entry.1
  let changed := acc.2 ++ [objectId]
  if acc.1.any (fun o => o.object_id = objectId) then
    (updateFirst (fun o => o.object_id = objectId)
      (fun o => { o with status := some st }) acc.1, changed)
  else (acc.1, changed)

/-- `Transaction.processV1ChangedObjects`: created, then mutated, then
deleted. -/
def processV1ChangedObjects (objs : List TxObject) (changed : List String)
    (eff : EffV1) : List TxObject × List String :=
  let acc := (eff.created.getD []).foldl processV1CreatedStep (objs, changed)
  let acc := (eff.mutated.getD []).foldl (processV1MarkStep "Modified") acc
  (eff.deleted.getD []).foldl (processV1MarkStep "Deleted") acc

/-- `Transaction._updateObjectStatusAndSource`: recompute every source and
default unset statuses to `Accessed`. -/
def updateObjectStatusAndSource (tx : TransactionM) : TransactionM :=
  let inputObjects := getInputObjects tx
  let gasObjects := getGasPaymentObjects tx
  { tx with objects := tx.objects.map (fun o =>
      { o with
        source := some (computeSource gasObjects inputObjects o.object_id),
        status := match o.status with | none => some "Accessed" | s => s }) }

/-- `Transaction.loadTransactionEffects`: V1 takes precedence over V2; the
common fields are extracted from whichever body is present, the per-version
processing runs, and statuses/sources are finalized. -/
def loadTransactionEffects (tx : TransactionM) (json : EffectsDoc) : TransactionM :=
  match json.V1 with
  | some eff =>
    let tx := { tx with
      status := strOrNull eff.status,
      epoch := natOrNull eff.executed_epoch,
      deps := eff.dependencies.getD [],
      digest := strOrNull eff.transaction_digest }
    let res := processV1ChangedObjects tx.objects tx.changed_objects eff
    updateObjectStatusAndSource { tx with objects := res.1, changed_objects := res.2 }
  | none =>
    match json.V2 with
    | some eff =>
      let tx := { tx with
        status := strOrNull eff.status,
        epoch := natOrNull eff.executed_epoch,
        deps := eff.dependencies.getD [],
        digest := strOrNull eff.transaction_digest }
      let res := processV2ChangedObjects tx.objects tx.changed_objects
        (eff.changed_objects.getD [])
      updateObjectStatusAndSource { tx with objects := res.1, changed_objects := res.2 }
    | none =>
      let tx := { tx with status := none, epoch := none, deps := [], digest := none }
      updateObjectStatusAndSource tx

/-! ### `loadTransactionGasReport` -/

/-- One `per_object_storage` entry's value.  `nonRefundableStorageFee` is
carried by real gas reports but never read by the loader — the output fee is
always derived. -/
structure StorageInfoIn where
  new_size : Option Dbl
  storage_cost : Option Dbl
  storage_rebate : Option Dbl
  nonRefundableStorageFee : Option Dbl

structure CostSummaryIn where
  computationCost : Option Dbl
  storageCost : Option Dbl
  storageRebate : Option Dbl
  nonRefundableStorageFee : Option Dbl

structure GasReportIn where
  cost_summary : Option CostSummaryIn
  gas_used : Option Dbl
  reference_gas_price : Option Dbl
  storage_gas_price : Option Dbl
  rebate_rate : Option Dbl
  per_object_storage : Option (List (String × StorageInfoIn))

/-- `Transaction.calculateNonRefundableFee`:
`Math.floor(storageRebate * (10000 - rebateRate) / 10000)` evaluated in
IEEE-754 binary64 double precision (the `storageCost` parameter is unused by
the source as well). -/
def calculateNonRefundableFee (storageCost storageRebate rebateRate : Dbl) : Int :=
  dblFloor (dblDiv (dblMul storageRebate (dblSub ⟨10000, 0⟩ rebateRate)) ⟨10000, 0⟩)

/-- `Transaction.loadTransactionGasReport`. -/
def loadTransactionGasReport (tx : TransactionM) (json : GasReportIn) : TransactionM :=
  let cs := json.cost_summary
  let gd := { tx.gas_data with
    computation_cost := dblOrNull (cs.bind (·.computationCost)),
    storage_cost := dblOrNull (cs.bind (·.storageCost)),
    storage_rebate := dblOrNull (cs.bind (·.storageRebate)),
    non_refundable_fee := dblOrNull (cs.bind (·.nonRefundableStorageFee)),
    gas_used := dblOrNull json.gas_used,
    reference_gas_price := dblOrNull json.reference_gas_price,
    storage_gas_price := dblOrNull json.storage_gas_price,
    rebate_rate := dblOrNull json.rebate_rate }
  let gd :=
    match json.per_object_storage with
    | some entries =>
      { gd with per_object_breakup := entries.map (fun e =>
          { object_id := e.1,
            size := dblOr e.2.new_size ⟨0, 0⟩,
            storage_cost := dblOr e.2.storage_cost ⟨0, 0⟩,
            storage_rebate := dblOr e.2.storage_rebate ⟨0, 0⟩,
            non_refundable_fee := calculateNonRefundableFee
              (dblOr e.2.storage_cost ⟨0, 0⟩)
              (dblOr e.2.storage_rebate ⟨0, 0⟩)
              (dblOr gd.rebate_rate ⟨9900, 0⟩) }) }
    | none => gd
  { tx with gas_data := gd }

/-! ### `loadPtbDetails` and the factory -/

/-- `forEach` with an index (`commands.forEach((cmd, index) => …)`). -/
def mapIdxFrom (f : Nat → α → α) : Nat → List α → List α
  | _, [] => []
  | i, x :: rest => f i x :: mapIdxFrom f (i + 1) rest

structure MoveCallInfoIn where
  command_signatures : Option (List (Option SignatureIn))

/-- `Transaction.loadPtbDetails`: attach `_signature` to each command by
positional index (the field is only ever read on `MoveCall` commands, so the
model stores it only there; on other commands the assignment has no
observable effect). -/
def loadPtbDetails (tx : TransactionM) (json : MoveCallInfoIn) : TransactionM :=
  match json.command_signatures with
  | some sigs =>
    match tx.kind with
    | some (.progTx inputs commands) =>
      let commands' := mapIdxFrom (fun idx cmd =>
        if idx < sigs.length then
          match cmd, sigs.get? idx with
          | .moveCall p m f ta args _, some s => .moveCall p m f ta args s
          | c, _ => c
        else cmd) 0 commands
      { tx with kind := some (.progTx inputs commands') }
    | _ => tx
  | none => tx

structure FilesIn where
  replay_cache_summary : Option CacheIn
  transaction_data : Option TransactionDataIn
  transaction_effects : Option EffectsDoc
  transaction_gas_report : Option GasReportIn
  move_call_info : Option MoveCallInfoIn

/-- `Transaction.fromFiles`: the static factory, loading the five artifacts
in their fixed order.  It is total — the source has no abort path. -/
def fromFiles (files : FilesIn) : TransactionM :=
  let tx := newTransaction
  let tx := match files.replay_cache_summary with
    | some j => loadReplayCacheSummary tx j
    | none => tx
  let tx := match files.transaction_data with
    | some j => loadTransactionData tx j
    | none => tx
  let tx := match files.transaction_effects with
    | some j => loadTransactionEffects tx j
    | none => tx
  let tx := match files.transaction_gas_report with
    | some j => loadTransactionGasReport tx j
    | none => tx
  match files.move_call_info with
  | some j => loadPtbDetails tx j
  | none => tx

/-! ### Claim C3: V1 and V2 effects shapes are equivalent -/

/-- The V2 rendering of one V1 `created` entry. -/
def v1CreatedToV2 (e : String × Nat) : String × ChangeInfo :=
  (e.1, ⟨"Created", none, some (.exist e.2 "")⟩)

/-- The V2 rendering of one V1 `mutated` entry (`id_operation = "None"`). -/
def v1MutatedToV2 (e : String × Nat) : String × ChangeInfo :=
  (e.1, ⟨"None", none, some (.exist e.2 "")⟩)

/-- The V2 rendering of one V1 `deleted` entry. -/
def v1DeletedToV2 (e : String × Nat) : String × ChangeInfo :=
  (e.1, ⟨"Deleted", none, some (.exist e.2 "")⟩)

/-- The V2-shaped effects artifact describing the same changes as a V1
artifact: one unified list of `(objectId, operationTag)` pairs, created
entries first, then mutated, then deleted. -/
def v1ToV2 (eff : EffV1) : EffV2 :=
  ⟨eff.status, eff.executed_epoch, eff.dependencies, eff.transaction_digest,
   some ((eff.created.getD []).map v1CreatedToV2
     ++ (eff.mutated.getD []).map v1MutatedToV2
     ++ (eff.deleted.getD []).map v1DeletedToV2)⟩

theorem processV2Step_created (acc : List TxObject × List String) (e : String × Nat) :
    processV2Step acc (v1CreatedToV2 e) = processV1CreatedStep acc e := by
  rfl

theorem processV2Step_mutated (acc : List TxObject × List String) (e : String × Nat) :
    processV2Step acc (v1MutatedToV2 e) = processV1MarkStep "Modified" acc e := by
  rfl

theorem processV2Step_deleted (acc : List TxObject × List String) (e : String × Nat) :
    processV2Step acc (v1DeletedToV2 e) = processV1MarkStep "Deleted" acc e := by
  rfl

theorem processV2_eq_processV1 (objs : List TxObject) (changed : List String)
    (eff : EffV1) :
    processV2ChangedObjects objs changed
        ((eff.created.getD []).map v1CreatedToV2
          ++ (eff.mutated.getD []).map v1MutatedToV2
          ++ (eff.deleted.getD []).map v1DeletedToV2)
      = processV1ChangedObjects objs changed eff := by
  unfold processV2ChangedObjects processV1ChangedObjects
  rw [List.foldl_append, List.foldl_append]
  rw [List.foldl_map, List.foldl_map, List.foldl_map]
  simp only [processV2Step_created, processV2Step_mutated, processV2Step_deleted]

/-- **C3.**  Ingesting a V1-shaped effects artifact and ingesting the
corresponding V2-shaped artifact (the unified `(objectId, operationTag)` list
describing the same created/mutated/deleted changes) produce the *same*
transaction — in particular they assign identical status values to every
ObjectRecord. -/
theorem effects_v1_v2_equivalent (tx : TransactionM) (eff : EffV1) :
    loadTransactionEffects tx ⟨some eff, none⟩
      = loadTransactionEffects tx ⟨none, some (v1ToV2 eff)⟩ := by
  unfold loadTransactionEffects
  simp only [v1ToV2, Option.getD_some]
  rw [processV2_eq_processV1]

/-! ### Claim C1: aggregation of a transaction-structure artifact with a
missing sender -/

theorem loadTransactionEffects_sender (tx : TransactionM) (j : EffectsDoc) :
    (loadTransactionEffects tx j).sender = tx.sender := by
  unfold loadTransactionEffects updateObjectStatusAndSource
  cases j.V1 <;> cases j.V2 <;> rfl

theorem loadTransactionGasReport_sender (tx : TransactionM) (j : GasReportIn) :
    (loadTransactionGasReport tx j).sender = tx.sender := by
  unfold loadTransactionGasReport
  cases j.per_object_storage <;> rfl

theorem loadPtbDetails_sender (tx : TransactionM) (j : MoveCallInfoIn) :
    (loadPtbDetails tx j).sender = tx.sender := by
  unfold loadPtbDetails
  cases j.command_signatures with
  | none => rfl
  | some sigs =>
    cases htx : tx.kind with
    | none => rfl
    | some k => cases k <;> rfl

/-- A concrete file set whose transaction-structure artifact has a `V1` body
with no `sender` field. -/
def ex1Files : FilesIn :=
  ⟨none, some ⟨some ⟨none, none, none, none⟩⟩, none, none, none⟩

/-- **C1 (counterexample to the claim as stated).**  The claim says a
transaction-structure artifact missing its sender field aborts aggregation
with a named error and never yields a Transaction.  But `loadTransactionData`
merely defaults the field (`this.sender = v1.sender || null`) and the factory
has no abort path at all: on such an input it returns a complete Transaction
aggregate with `sender = null` — here, exactly the freshly-constructed
aggregate. -/
theorem fromFiles_missing_sender_counterexample :
    (fromFiles ex1Files).sender = none ∧ fromFiles ex1Files = newTransaction := by
  constructor <;> rfl

/-- **C1 (amended).**  Aggregating a file set whose transaction-structure
artifact is missing its sender field (or carries a falsy one) does not abort:
the factory still returns a full Transaction aggregate, with the sender field
defaulted to null. -/
theorem fromFiles_missing_sender (files : FilesIn) (td : TxDataV1)
    (htd : files.transaction_data = some ⟨some td⟩)
    (hs : td.sender = none ∨ td.sender = some "") :
    (fromFiles files).sender = none := by
  unfold fromFiles
  rw [htd]
  have hdata : ∀ tx : TransactionM,
      (loadTransactionData tx ⟨some td⟩).sender = none := by
    intro tx
    unfold loadTransactionData populateObjectSources
    rcases hs with h | h <;> simp [h, strOrNull]
  cases hcache : files.replay_cache_summary with
  | none =>
    cases heff : files.transaction_effects with
    | none =>
      cases hgas : files.transaction_gas_report with
      | none =>
        cases hmci : files.move_call_info with
        | none => exact hdata _
        | some j => rw [loadPtbDetails_sender]; exact hdata _
      | some jg =>
        cases hmci : files.move_call_info with
        | none => rw [loadTransactionGasReport_sender]; exact hdata _
        | some j =>
          rw [loadPtbDetails_sender, loadTransactionGasReport_sender]; exact hdata _
    | some je =>
      cases hgas : files.transaction_gas_report with
      | none =>
        cases hmci : files.move_call_info with
        | none => rw [loadTransactionEffects_sender]; exact hdata _
        | some j =>
          rw [loadPtbDetails_sender, loadTransactionEffects_sender]; exact hdata _
      | some jg =>
        cases hmci : files.move_call_info with
        | none =>
          rw [loadTransactionGasReport_sender, loadTransactionEffects_sender]; exact hdata _
        | some j =>
          rw [loadPtbDetails_sender, loadTransactionGasReport_sender,
            loadTransactionEffects_sender]; exact hdata _
  | some jc =>
    cases heff : files.transaction_effects with
    | none =>
      cases hgas : files.transaction_gas_report with
      | none =>
        cases hmci : files.move_call_info with
        | none => exact hdata _
        | some j => rw [loadPtbDetails_sender]; exact hdata _
      | some jg =>
        cases hmci : files.move_call_info with
        | none => rw [loadTransactionGasReport_sender]; exact hdata _
        | some j =>
          rw [loadPtbDetails_sender, loadTransactionGasReport_sender]; exact hdata _
    | some je =>
      cases hgas : files.transaction_gas_report with
      | none =>
        cases hmci : files.move_call_info with
        | none => rw [loadTransactionEffects_sender]; exact hdata _
        | some j =>
          rw [loadPtbDetails_sender, loadTransactionEffects_sender]; exact hdata _
      | some jg =>
        cases hmci : files.move_call_info with
        | none =>
          rw [loadTransactionGasReport_sender, loadTransactionEffects_sender]; exact hdata _
        | some j =>
          rw [loadPtbDetails_sender, loadTransactionGasReport_sender,
            loadTransactionEffects_sender]; exact hdata _

/-- Witness for C1 (amended): the concrete sender-less file set. -/
theorem fromFiles_missing_sender_witness :
    ex1Files.transaction_data = some ⟨some ⟨none, none, none, none⟩⟩
    ∧ (fromFiles ex1Files).sender = none := by
  refine ⟨rfl, ?_⟩
  exact fromFiles_missing_sender ex1Files ⟨none, none, none, none⟩ rfl (Or.inl rfl)

/-! ### Claims C2 and C9: the per-object non-refundable fee -/

/-- A gas report carrying the explicit rebate rate 9900 and one per-object
entry whose `storage_rebate` is `7076373025493099` (exactly representable in
binary64) — the artifact even supplies the exact fee `70763730254930`, which
the loader ignores. -/
def ex2GasReport : GasReportIn :=
  ⟨none, none, none, none, some ⟨9900, 0⟩,
   some [("0xabc", ⟨some ⟨10, 0⟩, some ⟨100, 0⟩, some ⟨7076373025493099, 0⟩,
     some ⟨70763730254930, 0⟩⟩)]⟩

/-- **C2 (counterexample to the claim as stated).**  The claim requires the
per-object fee to be bit-for-bit `floor(storage_rebate * (10000 -
rebate_rate) / 10000)` in exact integer arithmetic for all unsigned 64-bit
`storage_rebate` values.  The source evaluates the formula on IEEE-754
binary64 doubles (`Math.floor(storageRebate * (10000 - rebateRate) /
10000)`), which rounds: at `storage_rebate = 7076373025493099`,
`rebate_rate = 9900` the aggregate stores `70763730254931`, while exact
integer floor division gives `70763730254930`. -/
theorem gasReport_fee_not_exact :
    ((loadTransactionGasReport newTransaction ex2GasReport).gas_data.per_object_breakup.map
        (fun e => e.non_refundable_fee)) = [70763730254931]
    ∧ ((7076373025493099 * (10000 - 9900) / 10000 : Int)) = 70763730254930
    ∧ (70763730254931 : Int) ≠ 70763730254930 := by
  refine ⟨by decide, by decide, by decide⟩

/-- **C2 (amended).**  Every per-object `non_refundable_fee` of the aggregate
is derived — never read from the input entry — as
`Math.floor(storage_rebate * (10000 - rebate_rate) / 10000)` evaluated in JS
double precision with the loaded rebate rate (default 9900); on the
documented example `storage_cost=100, storage_rebate=200, rebate_rate=9900`
this equals the exact integer value 2.  (Bit-for-bit parity with exact
integer division for *all* u64 `storage_rebate` values does not hold, see the
counterexample.) -/
theorem gasReport_fee_derived :
    (∀ (tx : TransactionM) (json : GasReportIn) (l : List (String × StorageInfoIn))
        (i : Nat) (e : String × StorageInfoIn),
      json.per_object_storage = some l → l.get? i = some e →
      ((loadTransactionGasReport tx json).gas_data.per_object_breakup).get? i
        = some { object_id := e.1,
                 size := dblOr e.2.new_size ⟨0, 0⟩,
                 storage_cost := dblOr e.2.storage_cost ⟨0, 0⟩,
                 storage_rebate := dblOr e.2.storage_rebate ⟨0, 0⟩,
                 non_refundable_fee := calculateNonRefundableFee
                   (dblOr e.2.storage_cost ⟨0, 0⟩)
                   (dblOr e.2.storage_rebate ⟨0, 0⟩)
                   (dblOr (dblOrNull json.rebate_rate) ⟨9900, 0⟩) })
    ∧ calculateNonRefundableFee ⟨100, 0⟩ ⟨200, 0⟩ ⟨9900, 0⟩ = 2 := by
  constructor
  · intro tx json l i e hl he
    unfold loadTransactionGasReport
    rw [hl]
    simp only [List.get?_eq_getElem?, List.getElem?_map]
    rw [List.get?_eq_getElem?] at he
    simp [he]
  · decide

/-- Witness for C2 (amended): the documented example — `storage_cost=100`,
`storage_rebate=200`, explicit `rebate_rate=9900`, and an input fee field of
999 that the loader ignores; the derived fee is 2. -/
theorem gasReport_fee_derived_witness :
    ((loadTransactionGasReport newTransaction
        ⟨none, none, none, none, some ⟨9900, 0⟩,
         some [("0xobj", ⟨some ⟨10, 0⟩, some ⟨100, 0⟩, some ⟨200, 0⟩,
           some ⟨999, 0⟩⟩)]⟩).gas_data.per_object_breakup).get? 0
      = some { object_id := "0xobj", size := ⟨10, 0⟩, storage_cost := ⟨100, 0⟩,
               storage_rebate := ⟨200, 0⟩, non_refundable_fee := 2 } := by
  have h := gasReport_fee_derived.1 newTransaction
    ⟨none, none, none, none, some ⟨9900, 0⟩,
     some [("0xobj", ⟨some ⟨10, 0⟩, some ⟨100, 0⟩, some ⟨200, 0⟩, some ⟨999, 0⟩⟩)]⟩
    [("0xobj", ⟨some ⟨10, 0⟩, some ⟨100, 0⟩, some ⟨200, 0⟩, some ⟨999, 0⟩⟩)]
    0 ("0xobj", ⟨some ⟨10, 0⟩, some ⟨100, 0⟩, some ⟨200, 0⟩, some ⟨999, 0⟩⟩)
    rfl rfl
  rw [h]
  decide

/-- **C9.**  When the gas report's `rebate_rate` is absent, null or `0`, every
per-object `non_refundable_fee` is computed with the default rebate rate
9900 — a rebate rate of 0 is never used in the formula. -/
theorem gasReport_default_rebate_rate :
    ∀ (tx : TransactionM) (json : GasReportIn) (l : List (String × StorageInfoIn))
      (i : Nat) (e : String × StorageInfoIn),
      (json.rebate_rate = none ∨ json.rebate_rate = some ⟨0, 0⟩) →
      json.per_object_storage = some l → l.get? i = some e →
      ((loadTransactionGasReport tx json).gas_data.per_object_breakup).get? i
        = some { object_id := e.1,
                 size := dblOr e.2.new_size ⟨0, 0⟩,
                 storage_cost := dblOr e.2.storage_cost ⟨0, 0⟩,
                 storage_rebate := dblOr e.2.storage_rebate ⟨0, 0⟩,
                 non_refundable_fee := calculateNonRefundableFee
                   (dblOr e.2.storage_cost ⟨0, 0⟩)
                   (dblOr e.2.storage_rebate ⟨0, 0⟩)
                   ⟨9900, 0⟩ } := by
  intro tx json l i e hrr hl he
  have h := gasReport_fee_derived.1 tx json l i e hl he
  rw [h]
  rcases hrr with h0 | h0 <;> rw [h0] <;> rfl

/-- Witness for C9: a gas report with `rebate_rate = 0` and the documented
per-object values; the fee is computed with rate 9900, giving 2. -/
theorem gasReport_default_rebate_rate_witness :
    ((loadTransactionGasReport newTransaction
        ⟨none, none, none, none, some ⟨0, 0⟩,
         some [("0xobj", ⟨none, some ⟨100, 0⟩, some ⟨200, 0⟩, none⟩)]⟩).gas_data.per_object_breakup).get? 0
      = some { object_id := "0xobj", size := ⟨0, 0⟩, storage_cost := ⟨100, 0⟩,
               storage_rebate := ⟨200, 0⟩, non_refundable_fee := 2 } := by
  have h := gasReport_default_rebate_rate newTransaction
    ⟨none, none, none, none, some ⟨0, 0⟩,
     some [("0xobj", ⟨none, some ⟨100, 0⟩, some ⟨200, 0⟩, none⟩)]⟩
    [("0xobj", ⟨none, some ⟨100, 0⟩, some ⟨200, 0⟩, none⟩)]
    0 ("0xobj", ⟨none, some ⟨100, 0⟩, some ⟨200, 0⟩, none⟩)
    (Or.inr rfl) rfl rfl
  rw [h]
  decide



/-! ### Claim C4: object sources and statuses after full aggregation

The proof goes through a closed-form characterization of
`processV2ChangedObjects` under the sanity hypotheses that object ids are
unique in the cache and in the effects list (both are id-keyed tables). -/

/-- The status update a V2 effects list induces on an existing record. -/
def v2UpdateStatus (entries : List (String × ChangeInfo)) (o : TxObject) : TxObject :=
  match entries.find? (fun e => e.1 = o.object_id) with
  | some e => { o with status := statusOfOp e.2.id_operation }
  | none => o

/-- The record `processV2ChangedObjects` synthesizes for a created object
absent from the cache. -/
def v2SynthRec (e : String × ChangeInfo) : TxObject :=
  { object_id := e.1, version := v2SynthVersion e.2,
    status := statusOfOp e.2.id_operation, source := some "Runtime",
    typ := none, object_type := some .unknownStr }

/-- The records synthesized for a V2 effects list: its `Created` entries not
present among `objs`. -/
def v2SynthList (objs : List TxObject) (entries : List (String × ChangeInfo)) :
    List TxObject :=
  (entries.filter (fun e =>
      !(objs.any (fun o => o.object_id = e.1))
        && (statusOfOp e.2.id_operation == some "Created"))).map v2SynthRec

theorem v2UpdateStatus_id (entries : List (String × ChangeInfo)) (o : TxObject) :
    (v2UpdateStatus entries o).object_id = o.object_id := by
  unfold v2UpdateStatus
  cases entries.find? (fun e => e.1 = o.object_id) <;> rfl

theorem map_update_id (entries : List (String × ChangeInfo)) (l : List TxObject) :
    (l.map (v2UpdateStatus entries)).map (fun o => o.object_id)
      = l.map (fun o => o.object_id) := by
  rw [List.map_map]
  exact List.map_congr_left (fun o _ => v2UpdateStatus_id entries o)

theorem updateFirst_eq_map (oid : String) (f : TxObject → TxObject) :
    ∀ l : List TxObject, (l.map (fun o => o.object_id)).Nodup →
      (∀ o, (f o).object_id = o.object_id) →
      updateFirst (fun o => o.object_id = oid) f l
        = l.map (fun o => if o.object_id = oid then f o else o) := by
  intro l
  induction l with
  | nil => intro _ _; rfl
  | cons x rest ih =>
    intro hnd hf
    simp only [List.map_cons, List.nodup_cons] at hnd
    by_cases hx : x.object_id = oid
    · have hrest : rest.map (fun o => if o.object_id = oid then f o else o) = rest := by
        have hcong : ∀ o ∈ rest, (if o.object_id = oid then f o else o) = o := by
          intro o ho
          have hne : o.object_id ≠ oid := by
            intro hoid
            refine hnd.1 ?_
            rw [hx, ← hoid]
            exact List.mem_map_of_mem _ ho
          simp [hne]
        rw [List.map_congr_left hcong]
        simp
      simp [updateFirst, hx, hrest]
    · simp [updateFirst, hx, ih hnd.2 hf]

theorem find?_cons_of_ne (e : String × ChangeInfo) (rest : List (String × ChangeInfo))
    (oid : String) (h : e.1 ≠ oid) :
    (e :: rest).find? (fun x => x.1 = oid) = rest.find? (fun x => x.1 = oid) := by
  simp [List.find?, h]

/-- Closed form of `processV2ChangedObjects`: every existing record gets the
status of (the unique) entry mentioning its id, created-but-absent entries
are appended as synthesized records, and every entry's id is appended to
`changed_objects`. -/
theorem processV2_characterize :
    ∀ (entries : List (String × ChangeInfo)) (objs : List TxObject)
      (changed : List String),
      (entries.map (fun e => e.1)).Nodup →
      (objs.map (fun o => o.object_id)).Nodup →
      processV2ChangedObjects objs changed entries
        = (objs.map (v2UpdateStatus entries) ++ v2SynthList objs entries,
           changed ++ entries.map (fun e => e.1)) := by
  intro entries
  induction entries with
  | nil =>
    intro objs changed _ _
    have h : ∀ o, v2UpdateStatus [] o = o := fun o => rfl
    have h2 : List.map (v2UpdateStatus []) objs = objs := by
      rw [List.map_congr_left (fun o _ => h o)]
      simp
    simp [processV2ChangedObjects, v2SynthList, h2]
  | cons e rest ih =>
    intro objs changed hE hO
    simp only [List.map_cons, List.nodup_cons] at hE
    have hstep : processV2ChangedObjects objs changed (e :: rest)
        = processV2ChangedObjects (processV2Step (objs, changed) e).1
            (processV2Step (objs, changed) e).2 rest := by
      simp [processV2ChangedObjects]
    by_cases hfound : objs.any (fun o => o.object_id = e.1)
    · -- the object exists: its status is updated in place
      have hstep1 : (processV2Step (objs, changed) e).1
          = updateFirst (fun o => o.object_id = e.1)
              (fun o => { o with status := statusOfOp e.2.id_operation }) objs := by
        simp [processV2Step, hfound]
      have hstep2 : (processV2Step (objs, changed) e).2 = changed ++ [e.1] := by
        simp [processV2Step, hfound]
      rw [hstep, hstep1, hstep2]
      rw [updateFirst_eq_map e.1
        (fun o => { o with status := statusOfOp e.2.id_operation }) objs hO
        (fun o => rfl)]
      have hids : (objs.map (fun o =>
          if o.object_id = e.1
          then { o with status := statusOfOp e.2.id_operation } else o)).map
            (fun o => o.object_id) = objs.map (fun o => o.object_id) := by
        rw [List.map_map]
        refine List.map_congr_left (fun o _ => ?_)
        by_cases h : o.object_id = e.1 <;> simp [h]
      have hO' := hids ▸ hO
      rw [ih _ _ hE.2 hO']
      refine congrArg₂ Prod.mk ?_ ?_
      · refine congrArg₂ (fun a b => a ++ b) ?_ ?_
        · rw [List.map_map]
          refine List.map_congr_left (fun o _ => ?_)
          simp only [Function.comp_apply]
          by_cases h : o.object_id = e.1
          · simp only [if_pos h]
            unfold v2UpdateStatus
            have hnotin : rest.find? (fun x => x.1 = o.object_id) = none := by
              rw [List.find?_eq_none]
              intro x hx
              simp only [decide_eq_true_eq]
              intro hxid
              refine hE.1 ?_
              rw [← h, ← hxid]
              exact List.mem_map_of_mem _ hx
            have hfind : (e :: rest).find? (fun x => x.1 = o.object_id) = some e := by
              rw [List.find?_cons_of_pos _ (by simp [h])]
            rw [hfind, hnotin]
          · simp only [if_neg h]
            unfold v2UpdateStatus
            rw [find?_cons_of_ne e rest o.object_id (fun hh => h hh.symm)]
        · unfold v2SynthList
          have hfilter : (e :: rest).filter (fun x =>
              !(objs.any (fun o => o.object_id = x.1))
                && (statusOfOp x.2.id_operation == some "Created"))
              = rest.filter (fun x =>
                !(objs.any (fun o => o.object_id = x.1))
                  && (statusOfOp x.2.id_operation == some "Created")) := by
            rw [List.filter_cons]
            simp [hfound]
          rw [hfilter]
          congr 1
          refine (List.filter_congr (fun x _ => ?_)).symm
          have hanyeq : ((objs.map (fun o =>
              if o.object_id = e.1
              then { o with status := statusOfOp e.2.id_operation } else o)).any
                (fun o => o.object_id = x.1))
              = objs.any (fun o => o.object_id = x.1) := by
            rw [List.any_map]
            congr 1
            funext o
            simp only [Function.comp_apply]
            by_cases h : o.object_id = e.1 <;> simp [h]
          rw [hanyeq]
      · simp
    · -- the object is absent
      have hnotin : ∀ o ∈ objs, o.object_id ≠ e.1 := by
        intro o ho h
        refine hfound ?_
        rw [List.any_eq_true]
        exact ⟨o, ho, by simp [h]⟩
      have hupdskip : objs.map (v2UpdateStatus (e :: rest))
          = objs.map (v2UpdateStatus rest) := by
        refine List.map_congr_left (fun o ho => ?_)
        unfold v2UpdateStatus
        rw [find?_cons_of_ne e rest o.object_id (hnotin o ho).symm]
      by_cases hcreated : statusOfOp e.2.id_operation = some "Created"
      · -- synthesize a new record
        have hstep1 : (processV2Step (objs, changed) e).1 = objs ++ [v2SynthRec e] := by
          simp [processV2Step, hfound, hcreated, v2SynthRec]
        have hstep2 : (processV2Step (objs, changed) e).2 = changed ++ [e.1] := by
          simp [processV2Step, hfound, hcreated]
        have hO' : ((objs ++ [v2SynthRec e]).map (fun o => o.object_id)).Nodup := by
          rw [List.map_append]
          refine List.Nodup.append hO (by simp) ?_
          intro a ha hb
          simp only [v2SynthRec, List.map_cons, List.map_nil,
            List.mem_singleton] at hb
          simp only [List.mem_map] at ha
          obtain ⟨o, ho, hid⟩ := ha
          refine hnotin o ho ?_
          rw [hid, hb]
        rw [hstep, hstep1, hstep2, ih _ _ hE.2 hO']
        refine congrArg₂ Prod.mk ?_ ?_
        · rw [List.map_append]
          have hsynthskip : v2UpdateStatus rest (v2SynthRec e) = v2SynthRec e := by
            unfold v2UpdateStatus
            have hnone : rest.find? (fun x => x.1 = (v2SynthRec e).object_id) = none := by
              rw [List.find?_eq_none]
              intro x hx
              simp only [decide_eq_true_eq]
              intro hxid
              refine hE.1 ?_
              have : (v2SynthRec e).object_id = e.1 := rfl
              rw [← this, ← hxid]
              exact List.mem_map_of_mem _ hx
            rw [hnone]
          have hsynthlist : v2SynthList (objs ++ [v2SynthRec e]) rest
              = v2SynthList objs rest := by
            unfold v2SynthList
            congr 1
            refine List.filter_congr (fun x hx => ?_)
            have hxid : x.1 ≠ e.1 := by
              intro h
              refine hE.1 ?_
              rw [← h]
              exact List.mem_map_of_mem _ hx
            rw [List.any_append]
            have hone : ([v2SynthRec e].any (fun o => o.object_id = x.1)) = false := by
              simp only [List.any_cons, List.any_nil, Bool.or_false, v2SynthRec,
                decide_eq_true_eq]
              simp only [decide_eq_false_iff_not]
              intro h
              exact hxid h.symm
            rw [hone, Bool.or_false]
          have hfirst : v2SynthList objs (e :: rest)
              = v2SynthRec e :: v2SynthList objs rest := by
            unfold v2SynthList
            rw [List.filter_cons]
            simp [hfound, hcreated]
          rw [← hupdskip, hsynthlist, hfirst]
          simp only [List.map_cons, List.map_nil, hsynthskip]
          rw [List.append_assoc]
          rfl
        · simp
      · -- not created: nothing happens
        have hstep1 : (processV2Step (objs, changed) e).1 = objs := by
          simp [processV2Step, hfound, hcreated]
        have hstep2 : (processV2Step (objs, changed) e).2 = changed ++ [e.1] := by
          simp [processV2Step, hfound, hcreated]
        rw [hstep, hstep1, hstep2, ih _ _ hE.2 hO]
        refine congrArg₂ Prod.mk ?_ ?_
        · have hfirst : v2SynthList objs (e :: rest) = v2SynthList objs rest := by
            unfold v2SynthList
            rw [List.filter_cons]
            simp [hfound, hcreated]
          rw [hupdskip, hfirst]
        · simp


/-- Finding by key in a key-nodup association list returns the member
itself. -/
theorem find?_eq_some_of_mem_nodup :
    ∀ (entries : List (String × ChangeInfo)) (e : String × ChangeInfo),
      e ∈ entries → (entries.map (fun x => x.1)).Nodup →
      entries.find? (fun x => x.1 = e.1) = some e := by
  intro entries
  induction entries with
  | nil => intro e he _; cases he
  | cons x rest ih =>
    intro e he hnd
    simp only [List.map_cons, List.nodup_cons] at hnd
    rcases List.mem_cons.mp he with rfl | hmem
    · rw [List.find?_cons_of_pos _ (by simp)]
    · have hne : x.1 ≠ e.1 := by
        intro h
        exact hnd.1 (h ▸ List.mem_map_of_mem _ hmem)
      rw [find?_cons_of_ne x rest e.1 hne]
      exact ih e hmem hnd.2

theorem loadGasReport_objects (tx : TransactionM) (j : GasReportIn) :
    (loadTransactionGasReport tx j).objects = tx.objects := by
  unfold loadTransactionGasReport
  cases j.per_object_storage <;> rfl

theorem loadGasReport_kind (tx : TransactionM) (j : GasReportIn) :
    (loadTransactionGasReport tx j).kind = tx.kind := by
  unfold loadTransactionGasReport
  cases j.per_object_storage <;> rfl

theorem loadGasReport_payment (tx : TransactionM) (j : GasReportIn) :
    (loadTransactionGasReport tx j).gas_data.payment = tx.gas_data.payment := by
  unfold loadTransactionGasReport
  cases j.per_object_storage <;> rfl

theorem loadPtbDetails_objects (tx : TransactionM) (j : MoveCallInfoIn) :
    (loadPtbDetails tx j).objects = tx.objects := by
  unfold loadPtbDetails
  cases j.command_signatures with
  | none => rfl
  | some sigs =>
    cases htx : tx.kind with
    | none => rfl
    | some k => cases k <;> rfl

theorem loadPtbDetails_payment (tx : TransactionM) (j : MoveCallInfoIn) :
    (loadPtbDetails tx j).gas_data.payment = tx.gas_data.payment := by
  unfold loadPtbDetails
  cases j.command_signatures with
  | none => rfl
  | some sigs =>
    cases htx : tx.kind with
    | none => rfl
    | some k => cases k <;> rfl

theorem filterMap_mapIdxFrom {α β : Type} (g : Nat → α → α) (p : α → Option β)
    (h : ∀ i x, p (g i x) = p x) :
    ∀ (l : List α) (i : Nat), List.filterMap p (mapIdxFrom g i l) = List.filterMap p l := by
  intro l
  induction l with
  | nil => intro i; rfl
  | cons x rest ih =>
    intro i
    simp only [mapIdxFrom, List.filterMap_cons, h i x, ih (i + 1)]

theorem getInputObjects_loadPtbDetails (tx : TransactionM) (j : MoveCallInfoIn) :
    getInputObjects (loadPtbDetails tx j) = getInputObjects tx := by
  unfold loadPtbDetails
  cases j.command_signatures with
  | none => rfl
  | some sigs =>
    cases htx : tx.kind with
    | none => rfl
    | some k =>
      cases k with
      | otherKind => rfl
      | progTx inputs commands =>
        unfold getInputObjects
        simp only [htx]
        congr 1
        exact filterMap_mapIdxFrom _ _
          (by
            intro i cmd
            by_cases hi : i < sigs.length
            · cases cmd <;> simp only [if_pos hi] <;>
                (try rfl) <;> cases sigs.get? i <;> rfl
            · simp [hi])
          commands 0

theorem getGasPaymentObjects_congr (tx tx' : TransactionM)
    (h : tx'.gas_data.payment = tx.gas_data.payment) :
    getGasPaymentObjects tx' = getGasPaymentObjects tx := by
  unfold getGasPaymentObjects
  rw [h]

theorem getInputObjects_congr (tx tx' : TransactionM) (h : tx'.kind = tx.kind) :
    getInputObjects tx' = getInputObjects tx := by
  unfold getInputObjects
  rw [h]

/-- The source/status property claim C4 asserts of the finished aggregate,
relative to a V2 effects entry list. -/
def sourceStatusProp (entries : List (String × ChangeInfo)) (tx : TransactionM) : Prop :=
  ∀ rec ∈ tx.objects,
    rec.source = some
      (if (getGasPaymentObjects tx).contains rec.object_id then "Gas"
       else if (getInputObjects tx).contains rec.object_id then "Input"
       else "Runtime")
    ∧ (entries.find? (fun e => e.1 = rec.object_id) = none →
        rec.status = some "Accessed")
    ∧ (∀ e ∈ entries, e.1 = rec.object_id →
        rec.status = statusOfOp e.2.id_operation)

theorem sourceStatusProp_congr (entries : List (String × ChangeInfo))
    (tx tx' : TransactionM) (hobj : tx'.objects = tx.objects)
    (hgas : getGasPaymentObjects tx' = getGasPaymentObjects tx)
    (hinp : getInputObjects tx' = getInputObjects tx) :
    sourceStatusProp entries tx → sourceStatusProp entries tx' := by
  intro h rec hrec
  rw [hobj] at hrec
  rw [hgas, hinp]
  exact h rec hrec

theorem mem_of_find?_some {entries : List (String × ChangeInfo)}
    {p : String × ChangeInfo → Bool} {e : String × ChangeInfo}
    (h : entries.find? p = some e) : e ∈ entries :=
  List.mem_of_find?_eq_some h

/-- `sourceStatusProp` holds right after `loadTransactionEffects` ingests a
V2-shaped artifact, provided statuses start unset, ids are unique, and every
operation tag is one of the three known ones. -/
theorem effects_sourceStatus
    (tx2 : TransactionM) (eff : EffV2) (entries : List (String × ChangeInfo))
    (hch : eff.changed_objects = some entries)
    (hE : (entries.map (fun e => e.1)).Nodup)
    (hO : (tx2.objects.map (fun o => o.object_id)).Nodup)
    (hpre : ∀ o ∈ tx2.objects, o.status = none)
    (htags : ∀ e ∈ entries, statusOfOp e.2.id_operation ≠ none) :
    sourceStatusProp entries (loadTransactionEffects tx2 ⟨none, some eff⟩) := by
  unfold loadTransactionEffects
  simp only [hch, Option.getD_some]
  rw [processV2_characterize entries _ _ hE hO]
  intro rec hrec
  simp only [updateObjectStatusAndSource, List.mem_map] at hrec
  obtain ⟨o, ho, rfl⟩ := hrec
  have hid : ∀ s t : Option String,
      ({ o with source := s, status := t } : TxObject).object_id = o.object_id :=
    fun s t => rfl
  refine ⟨rfl, ?_, ?_⟩
  · -- not mentioned anywhere: the status defaults to Accessed
    intro hnone
    rcases List.mem_append.mp ho with hleft | hright
    · simp only [List.mem_map] at hleft
      obtain ⟨c, hc, rfl⟩ := hleft
      have hnone1 : entries.find?
          (fun e => e.1 = (v2UpdateStatus entries c).object_id) = none := hnone
      rw [v2UpdateStatus_id] at hnone1
      have hstat : (v2UpdateStatus entries c).status = none := by
        unfold v2UpdateStatus
        rw [hnone1]
        exact hpre c hc
      show (match (v2UpdateStatus entries c).status with
            | none => some "Accessed" | s => s) = some "Accessed"
      rw [hstat]
    · -- synthesized records are always mentioned (contradiction)
      unfold v2SynthList at hright
      simp only [List.mem_map, List.mem_filter] at hright
      obtain ⟨e0, ⟨he0, hcond⟩, rfl⟩ := hright
      have hfind0 : entries.find? (fun e => e.1 = (v2SynthRec e0).object_id) = some e0 :=
        find?_eq_some_of_mem_nodup entries e0 he0 hE
      have hnone1 : entries.find?
          (fun e => e.1 = (v2SynthRec e0).object_id) = none := hnone
      rw [hfind0] at hnone1
      cases hnone1
  · -- mentioned: the status is the entry's mapped tag
    intro e he heid
    have hfind : entries.find? (fun x => x.1 = e.1) = some e :=
      find?_eq_some_of_mem_nodup entries e he hE
    rcases List.mem_append.mp ho with hleft | hright
    · simp only [List.mem_map] at hleft
      obtain ⟨c, hc, rfl⟩ := hleft
      have heid1 : e.1 = (v2UpdateStatus entries c).object_id := heid
      rw [v2UpdateStatus_id] at heid1
      rw [heid1] at hfind
      have hstat : (v2UpdateStatus entries c).status = statusOfOp e.2.id_operation := by
        unfold v2UpdateStatus
        rw [hfind]
      show (match (v2UpdateStatus entries c).status with
            | none => some "Accessed" | s => s) = statusOfOp e.2.id_operation
      rw [hstat]
      have hne := htags e he
      cases hs : statusOfOp e.2.id_operation with
      | none => exact absurd hs hne
      | some s => rfl
    · unfold v2SynthList at hright
      simp only [List.mem_map, List.mem_filter] at hright
      obtain ⟨e0, ⟨he0, hcond⟩, rfl⟩ := hright
      have heid1 : e.1 = e0.1 := heid
      have hfind0 : entries.find? (fun x => x.1 = e0.1) = some e0 :=
        find?_eq_some_of_mem_nodup entries e0 he0 hE
      rw [heid1] at hfind
      have hee0 : e = e0 := Option.some.inj (hfind.symm.trans hfind0)
      subst hee0
      have hcreated : statusOfOp e.2.id_operation = some "Created" := by
        simp only [Bool.and_eq_true, beq_iff_eq] at hcond
        exact hcond.2
      have hstat : (v2SynthRec e).status = statusOfOp e.2.id_operation := rfl
      show (match (v2SynthRec e).status with
            | none => some "Accessed" | s => s) = statusOfOp e.2.id_operation
      rw [hstat, hcreated]

theorem cache_data_ids (cache : CacheIn) (centries : List CacheEntry)
    (td : TransactionDataIn) (hce : cache.cache_entries = some centries) :
    ((loadTransactionData (loadReplayCacheSummary newTransaction cache) td).objects.map
        (fun o => o.object_id))
      = centries.map (fun c => c.object_id) := by
  unfold loadTransactionData populateObjectSources loadReplayCacheSummary
  simp only [hce, newTransaction, List.nil_append, List.map_map]
  exact List.map_congr_left (fun c _ => rfl)

theorem cache_data_status_none (cache : CacheIn) (centries : List CacheEntry)
    (td : TransactionDataIn) (hce : cache.cache_entries = some centries) :
    ∀ o ∈ (loadTransactionData (loadReplayCacheSummary newTransaction cache) td).objects,
      o.status = none := by
  unfold loadTransactionData populateObjectSources loadReplayCacheSummary
  simp only [hce, newTransaction, List.nil_append, List.map_map, List.mem_map]
  rintro o ⟨c, _, rfl⟩
  rfl

/-- **C4.**  After full aggregation of a cache artifact, a
transaction-structure artifact and a V2 effects artifact (unique object ids,
known operation tags): every ObjectRecord's source is `Gas` if its id is in
the gas payment set, else `Input` if it appears among the transaction inputs
(which include MoveCall packages, per `getInputObjects`), else `Runtime`; and
every record not mentioned in the effects' per-object operations has status
`Accessed`, while mentioned records carry the status mapped from their
operation tag (`Created`/`Modified`/`Deleted`). -/
theorem aggregation_source_status
    (files : FilesIn) (cache : CacheIn) (centries : List CacheEntry)
    (td : TransactionDataIn) (eff : EffV2) (entries : List (String × ChangeInfo))
    (hcache : files.replay_cache_summary = some cache)
    (hce : cache.cache_entries = some centries)
    (htd : files.transaction_data = some td)
    (heff : files.transaction_effects = some ⟨none, some eff⟩)
    (hch : eff.changed_objects = some entries)
    (hE : (entries.map (fun e => e.1)).Nodup)
    (hO : (centries.map (fun c => c.object_id)).Nodup)
    (htags : ∀ e ∈ entries, statusOfOp e.2.id_operation ≠ none) :
    ∀ rec ∈ (fromFiles files).objects,
      rec.source = some
        (if (getGasPaymentObjects (fromFiles files)).contains rec.object_id then "Gas"
         else if (getInputObjects (fromFiles files)).contains rec.object_id then "Input"
         else "Runtime")
      ∧ (entries.find? (fun e => e.1 = rec.object_id) = none →
          rec.status = some "Accessed")
      ∧ (∀ e ∈ entries, e.1 = rec.object_id →
          rec.status = statusOfOp e.2.id_operation) := by
  suffices h : sourceStatusProp entries (fromFiles files) by
    intro rec hrec
    exact h rec hrec
  unfold fromFiles
  rw [hcache, htd, heff]
  have hbase : sourceStatusProp entries
      (loadTransactionEffects
        (loadTransactionData (loadReplayCacheSummary newTransaction cache) td)
        ⟨none, some eff⟩) := by
    refine effects_sourceStatus _ eff entries hch hE ?_ ?_ htags
    · rw [cache_data_ids cache centries td hce]
      exact hO
    · exact cache_data_status_none cache centries td hce
  cases hgas : files.transaction_gas_report with
  | none =>
    cases hmci : files.move_call_info with
    | none => exact hbase
    | some jm =>
      refine sourceStatusProp_congr entries _ _ (loadPtbDetails_objects _ jm)
        (getGasPaymentObjects_congr _ _ (loadPtbDetails_payment _ jm))
        (getInputObjects_loadPtbDetails _ jm) hbase
  | some jg =>
    have hmid : sourceStatusProp entries
        (loadTransactionGasReport
          (loadTransactionEffects
            (loadTransactionData (loadReplayCacheSummary newTransaction cache) td)
            ⟨none, some eff⟩) jg) := by
      refine sourceStatusProp_congr entries _ _ (loadGasReport_objects _ jg)
        (getGasPaymentObjects_congr _ _ (loadGasReport_payment _ jg))
        (getInputObjects_congr _ _ (loadGasReport_kind _ jg)) hbase
    cases hmci : files.move_call_info with
    | none => exact hmid
    | some jm =>
      refine sourceStatusProp_congr entries _ _ (loadPtbDetails_objects _ jm)
        (getGasPaymentObjects_congr _ _ (loadPtbDetails_payment _ jm))
        (getInputObjects_loadPtbDetails _ jm) hmid

/-- Witness for C4: a one-object cache, a transaction whose gas payment is
that object, and a V2 effects artifact mutating it (`id_operation = None`):
the record ends with source `Gas` and status `Modified`. -/
theorem aggregation_source_status_witness :
    ((fromFiles
      ⟨some ⟨none, none, none, none, some [⟨"0xg", some 3, none⟩]⟩,
       some ⟨some ⟨some "0xsender", none, none,
         some ⟨some [("0xg", 3, "dg")], none, none, none⟩⟩⟩,
       some ⟨none, some ⟨none, none, none, none,
         some [("0xg", ⟨"None", none, none⟩)]⟩⟩,
       none, none⟩).objects.map (fun r => (r.source, r.status)))
      = [(some "Gas", some "Modified")] := by
  have hobj : ((fromFiles
      ⟨some ⟨none, none, none, none, some [⟨"0xg", some 3, none⟩]⟩,
       some ⟨some ⟨some "0xsender", none, none,
         some ⟨some [("0xg", 3, "dg")], none, none, none⟩⟩⟩,
       some ⟨none, some ⟨none, none, none, none,
         some [("0xg", ⟨"None", none, none⟩)]⟩⟩,
       none, none⟩).objects.map (fun o => o.object_id)) = ["0xg"] := by rfl
  have hgas : (getGasPaymentObjects (fromFiles
      ⟨some ⟨none, none, none, none, some [⟨"0xg", some 3, none⟩]⟩,
       some ⟨some ⟨some "0xsender", none, none,
         some ⟨some [("0xg", 3, "dg")], none, none, none⟩⟩⟩,
       some ⟨none, some ⟨none, none, none, none,
         some [("0xg", ⟨"None", none, none⟩)]⟩⟩,
       none, none⟩)) = ["0xg"] := by rfl
  cases hL : (fromFiles
      ⟨some ⟨none, none, none, none, some [⟨"0xg", some 3, none⟩]⟩,
       some ⟨some ⟨some "0xsender", none, none,
         some ⟨some [("0xg", 3, "dg")], none, none, none⟩⟩⟩,
       some ⟨none, some ⟨none, none, none, none,
         some [("0xg", ⟨"None", none, none⟩)]⟩⟩,
       none, none⟩).objects with
  | nil => rw [hL] at hobj; cases hobj
  | cons r rs =>
    cases rs with
    | cons r2 rs2 => rw [hL] at hobj; simp at hobj
    | nil =>
      have hr : r ∈ (fromFiles
          ⟨some ⟨none, none, none, none, some [⟨"0xg", some 3, none⟩]⟩,
           some ⟨some ⟨some "0xsender", none, none,
             some ⟨some [("0xg", 3, "dg")], none, none, none⟩⟩⟩,
           some ⟨none, some ⟨none, none, none, none,
             some [("0xg", ⟨"None", none, none⟩)]⟩⟩,
           none, none⟩).objects := by rw [hL]; exact List.mem_cons_self r []
      have h := aggregation_source_status
        ⟨some ⟨none, none, none, none, some [⟨"0xg", some 3, none⟩]⟩,
         some ⟨some ⟨some "0xsender", none, none,
           some ⟨some [("0xg", 3, "dg")], none, none, none⟩⟩⟩,
         some ⟨none, some ⟨none, none, none, none,
           some [("0xg", ⟨"None", none, none⟩)]⟩⟩,
         none, none⟩
        ⟨none, none, none, none, some [⟨"0xg", some 3, none⟩]⟩
        [⟨"0xg", some 3, none⟩]
        ⟨some ⟨some "0xsender", none, none,
          some ⟨some [("0xg", 3, "dg")], none, none, none⟩⟩⟩
        ⟨none, none, none, none, some [("0xg", ⟨"None", none, none⟩)]⟩
        [("0xg", ⟨"None", none, none⟩)]
        rfl rfl rfl rfl rfl (by simp) (by simp)
        (by intro e he; simp at he; subst he; simp [statusOfOp])
        r hr
      have hrid : r.object_id = "0xg" := by
        rw [hL] at hobj
        simpa using hobj
      have h1 : r.source = some "Gas" := by
        rw [h.1, hgas, hrid]
        rfl
      have h2 : r.status = some "Modified" := by
        have hm := h.2.2 ("0xg", ⟨"None", none, none⟩) (by simp) (by rw [hrid])
        rw [hm]
        rfl
      simp [h1, h2]

/-! ### Claim C8: totality of the raw type normalizer

`MoveType.fromTypeStructure` is also called on untyped JSON (`typeObj` may be
any value).  To settle totality we re-embed it over a model of raw JavaScript
values, `JsVal`, with JavaScript truthiness, property access, iterator
destructuring (array patterns throw a `TypeError` on non-iterables) and
`String.prototype.startsWith` (throws on non-strings).  Recursion is fuelled;
running out of fuel yields the distinct error `"FUEL"`, so a `TypeError`
result is a genuine throw of the modelled code. -/

inductive JsVal where
  | vUndef
  | vNull
  | vBool (b : Bool)
  | vNum (n : Int)
  | vStr (s : String)
  | vArr (elems : List JsVal)
  | vObj (fields : List (String × JsVal))

/-- JavaScript truthiness of a value (`NaN` is not modelled; JSON numbers are
integers here). -/
def jsTruthy : JsVal → Bool
  | .vUndef => false
  | .vNull => false
  | .vBool b => b
  | .vNum n => n != 0
  | .vStr s => s != ""
  | .vArr _ => true
  | .vObj _ => true

/-- First binding of a key in an object literal. -/
def objGet (fields : List (String × JsVal)) (key : String) : Option JsVal :=
  (fields.find? (fun kv => kv.1 = key)).map (fun kv => kv.2)

/-- `v.key` for the property names used by `fromTypeStructure`: `undefined`
on primitives and arrays (none of the accessed names exists there). -/
def jsProp : JsVal → String → Option JsVal
  | .vObj fields, key => objGet fields key
  | _, _ => none

/-- An optional property read collapsed to a value (`undefined` when absent). -/
def jsOr (o : Option JsVal) : JsVal := o.getD .vUndef

def jsTruthyOpt (o : Option JsVal) : Bool := jsTruthy (jsOr o)

/-- Array-pattern destructuring (`const [a, b] = v`): arrays yield their
elements, strings their characters, everything else throws a `TypeError`. -/
def jsIter : JsVal → Except String (List JsVal)
  | .vArr xs => .ok xs
  | .vStr s => .ok (s.data.map (fun c => .vStr (String.mk [c])))
  | _ => .error "TypeError: not iterable"

/-- `packageAddr.startsWith('0x') ? packageAddr.slice(2) : packageAddr`:
defined on strings, a thrown `TypeError` on every other value. -/
def normalizePkgRaw : JsVal → Except String String
  | .vStr s => .ok (stripHexPrefix s)
  | _ => .error "TypeError: startsWith is not a function"

/-- `type_args && type_args.length > 0` followed by `type_args.map(...)`
(equally, `(typeObj.type_args || []).length > 0` then `.map`): `some xs`
when the mapped branch is taken with array `xs`, `none` when the guard is
false, an error when the guard is true but `.map` is not a function.  A
non-numeric `length` property on a plain object makes the `>` comparison
false (string-to-number coercion of exotic `length` values is not
modelled; no theorem below exercises that corner). -/
def typeArgsList : Option JsVal → Except String (Option (List JsVal))
  | none => .ok none
  | some .vUndef => .ok none
  | some .vNull => .ok none
  | some (.vBool _) => .ok none
  | some (.vNum _) => .ok none
  | some (.vStr s) => if s = "" then .ok none
      else .error "TypeError: map is not a function"
  | some (.vArr xs) => if xs.isEmpty then .ok none else .ok (some xs)
  | some (.vObj fs) =>
      match objGet fs "length" with
      | some (.vNum k) => if 0 < k then .error "TypeError: map is not a function"
          else .ok none
      | _ => .ok none

/-- The `MoveType` instances built from raw values: the constructor stores
whatever values destructuring produced (possibly `undefined`). -/
inductive MoveTypeR where
  | mk (package : JsVal) (mod : JsVal) (name : JsVal)
       (typeArgs : List MoveTypeR)
       (isPrimitive : Bool) (isReference : Bool) (isMutableReference : Bool)

/-- `new MoveType(pkg, module, name, typeArgs, isPrimitive)` over raw values
(reference flags start unset). -/
def makeR (package mod name : JsVal) (typeArgs : List MoveTypeR)
    (isPrimitive : Bool) : MoveTypeR :=
  .mk package mod name typeArgs isPrimitive false false

/-- The fallback `new MoveType(null, 'unknown', 'unknown', [], false)`. -/
def unknownMoveTypeR : MoveTypeR :=
  makeR .vNull (.vStr "unknown") (.vStr "unknown") [] false

/-- `arg => MoveType.fromTypeStructure(arg, cacheData)` mapped over an array,
stopping at the first thrown error. -/
def exceptMapList (f : JsVal → Except String MoveTypeR) :
    List JsVal → Except String (List MoveTypeR)
  | [] => .ok []
  | x :: xs => do
      let y ← f x
      let ys ← exceptMapList f xs
      .ok (y :: ys)

/-- `MoveType.fromTypeStructure(typeObj, cacheData)` over raw values, branch
for branch and in source order: string primitives; the `Object.entries`
primitive-key scan; `Vector`; `Reference`; `MutableReference`; lowercase
`struct`; `Struct`; `DatatypeInstantiation`; `Datatype`; the direct
`{address, module, name, type_args}` format; then the unknown fallback.
`.ok` is a returned value, `.error` a thrown `TypeError` (or exhausted
fuel, tagged `"FUEL"`). -/
def fromTypeStructureRaw : Nat → JsVal → Except String MoveTypeR
  | 0, _ => .error "FUEL"
  | fuel+1, typeObj =>
    match typeObj with
    | .vStr s =>
      match primitivesMap s with
      | some p => .ok (makeR .vNull .vNull (.vStr p) [] true)
      | none => .ok unknownMoveTypeR
    | .vObj fields =>
      match fields.find? (fun kv => (primitivesMap kv.1).isSome) with
      | some kv => .ok (makeR .vNull .vNull (.vStr ((primitivesMap kv.1).getD "")) [] true)
      | none =>
        if jsTruthyOpt (objGet fields "Vector") then do
          let inner ← fromTypeStructureRaw fuel (jsOr (objGet fields "Vector"))
          .ok (makeR .vNull (.vStr "vector") (.vStr "vector") [inner] true)
        else if jsTruthyOpt (objGet fields "Reference") then do
          let inner ← fromTypeStructureRaw fuel (jsOr (objGet fields "Reference"))
          match inner with
          | .mk p m n ts prim _ _ => .ok (.mk p m n ts prim true false)
        else if jsTruthyOpt (objGet fields "MutableReference") then do
          let inner ← fromTypeStructureRaw fuel (jsOr (objGet fields "MutableReference"))
          match inner with
          | .mk p m n ts prim _ _ => .ok (.mk p m n ts prim false true)
        else if jsTruthyOpt (objGet fields "struct") then do
          let w := jsOr (objGet fields "struct")
          let pkg ← normalizePkgRaw (jsOr (jsProp w "address"))
          match ← typeArgsList (jsProp w "type_args") with
          | some xs => do
              let parsed ← exceptMapList (fromTypeStructureRaw fuel) xs
              .ok (makeR (.vStr pkg) (jsOr (jsProp w "module"))
                    (jsOr (jsProp w "name")) parsed false)
          | none =>
              .ok (makeR (.vStr pkg) (jsOr (jsProp w "module"))
                    (jsOr (jsProp w "name")) [] false)
        else if jsTruthyOpt (objGet fields "Struct") then do
          let elems ← jsIter (jsOr (objGet fields "Struct"))
          let inner ← jsIter (elems.getD 0 .vUndef)
          let pkg ← normalizePkgRaw (inner.getD 0 .vUndef)
          .ok (makeR (.vStr pkg) (inner.getD 1 .vUndef) (inner.getD 2 .vUndef) [] false)
        else if jsTruthyOpt (objGet fields "DatatypeInstantiation") then do
          let elems ← jsIter (jsOr (objGet fields "DatatypeInstantiation"))
          let inner ← jsIter (elems.getD 0 .vUndef)
          let pkg ← normalizePkgRaw (inner.getD 0 .vUndef)
          match elems.getD 1 .vUndef with
          | .vArr xs => do
              let parsed ← exceptMapList (fromTypeStructureRaw fuel) xs
              .ok (makeR (.vStr pkg) (inner.getD 1 .vUndef) (inner.getD 2 .vUndef)
                    parsed false)
          | _ => .error "TypeError: map is not a function"
        else if jsTruthyOpt (objGet fields "Datatype") then do
          let elems ← jsIter (jsOr (objGet fields "Datatype"))
          let pkg ← normalizePkgRaw (elems.getD 0 .vUndef)
          .ok (makeR (.vStr pkg) (elems.getD 1 .vUndef) (elems.getD 2 .vUndef) [] false)
        else if jsTruthyOpt (objGet fields "address")
            && jsTruthyOpt (objGet fields "module")
            && jsTruthyOpt (objGet fields "name") then do
          let pkg ← normalizePkgRaw (jsOr (objGet fields "address"))
          match ← typeArgsList (objGet fields "type_args") with
          | some xs => do
              let parsed ← exceptMapList (fromTypeStructureRaw fuel) xs
              .ok (makeR (.vStr pkg) (jsOr (objGet fields "module"))
                    (jsOr (objGet fields "name")) parsed false)
          | none =>
              .ok (makeR (.vStr pkg) (jsOr (objGet fields "module"))
                    (jsOr (objGet fields "name")) [] false)
        else
          .ok unknownMoveTypeR
    | _ => .ok unknownMoveTypeR


/-- The guard cascade of the object branch: some branch other than the
unknown fallback fires. -/
def rawRecognizedGuard (fields : List (String × JsVal)) : Bool :=
  (fields.find? (fun kv => (primitivesMap kv.1).isSome)).isSome
  || jsTruthyOpt (objGet fields "Vector")
  || jsTruthyOpt (objGet fields "Reference")
  || jsTruthyOpt (objGet fields "MutableReference")
  || jsTruthyOpt (objGet fields "struct")
  || jsTruthyOpt (objGet fields "Struct")
  || jsTruthyOpt (objGet fields "DatatypeInstantiation")
  || jsTruthyOpt (objGet fields "Datatype")
  || (jsTruthyOpt (objGet fields "address")
      && jsTruthyOpt (objGet fields "module")
      && jsTruthyOpt (objGet fields "name"))

/-- The known raw encodings as the specification lists them (this predicate
follows the specification text, for comparison with the code-derived
`fromTypeStructureRaw`): string type names; `\x7bVector: T\x7d`, `\x7bvector: T\x7d`,
`\x7bReference: T\x7d`, `\x7bMutableReference: T\x7d`; `\x7bstruct: \x7baddress, module, name,
type_args?\x7d\x7d`; `\x7bStruct: [[address, module, name, _]]\x7d`;
`\x7bDatatypeInstantiation: [[address, module, name, _], type_args]\x7d`;
`\x7bDatatype: [address, module, name, _]\x7d`; `\x7bTypeParameter: i\x7d`; and the
direct cache format `\x7baddress, module, name, type_args?\x7d`, with addresses
given as strings, truthy module/name in the direct format, and `type_args`
recursively encoded.  The `Nat` index bounds the nesting depth. -/
inductive SpecRawEncoding : Nat → JsVal → Prop where
  | str (fuel : Nat) (s : String) : SpecRawEncoding (fuel+1) (.vStr s)
  | vec (fuel : Nat) (t : JsVal) : SpecRawEncoding fuel t →
      SpecRawEncoding (fuel+1) (.vObj [("Vector", t)])
  | vecLower (fuel : Nat) (t : JsVal) :
      SpecRawEncoding (fuel+1) (.vObj [("vector", t)])
  | ref (fuel : Nat) (t : JsVal) : SpecRawEncoding fuel t →
      SpecRawEncoding (fuel+1) (.vObj [("Reference", t)])
  | mutRef (fuel : Nat) (t : JsVal) : SpecRawEncoding fuel t →
      SpecRawEncoding (fuel+1) (.vObj [("MutableReference", t)])
  | typeParam (fuel : Nat) (i : Int) :
      SpecRawEncoding (fuel+1) (.vObj [("TypeParameter", .vNum i)])
  | datatype (fuel : Nat) (a : String) (m n p : JsVal) :
      SpecRawEncoding (fuel+1) (.vObj [("Datatype", .vArr [.vStr a, m, n, p])])
  | structCap (fuel : Nat) (a : String) (rest : List JsVal) :
      SpecRawEncoding (fuel+1) (.vObj [("Struct", .vArr [.vArr (.vStr a :: rest)])])
  | dtInst (fuel : Nat) (a : String) (rest : List JsVal) (ts : List JsVal) :
      (∀ t ∈ ts, SpecRawEncoding fuel t) →
      SpecRawEncoding (fuel+1)
        (.vObj [("DatatypeInstantiation", .vArr [.vArr (.vStr a :: rest), .vArr ts])])
  | structLower (fuel : Nat) (a : String) (m n : JsVal) :
      SpecRawEncoding (fuel+1)
        (.vObj [("struct", .vObj [("address", .vStr a), ("module", m), ("name", n)])])
  | structLowerArgs (fuel : Nat) (a : String) (m n : JsVal) (ts : List JsVal) :
      (∀ t ∈ ts, SpecRawEncoding fuel t) →
      SpecRawEncoding (fuel+1)
        (.vObj [("struct", .vObj [("address", .vStr a), ("module", m), ("name", n),
          ("type_args", .vArr ts)])])
  | direct (fuel : Nat) (a : String) (m n : JsVal) :
      a ≠ "" → jsTruthy m = true → jsTruthy n = true →
      SpecRawEncoding (fuel+1)
        (.vObj [("address", .vStr a), ("module", m), ("name", n)])
  | directArgs (fuel : Nat) (a : String) (m n : JsVal) (ts : List JsVal) :
      a ≠ "" → jsTruthy m = true → jsTruthy n = true →
      (∀ t ∈ ts, SpecRawEncoding fuel t) →
      SpecRawEncoding (fuel+1)
        (.vObj [("address", .vStr a), ("module", m), ("name", n),
          ("type_args", .vArr ts)])

/-- Whether an `Except` result is a returned value (as opposed to a throw). -/
def exOk {α : Type} : Except String α → Bool
  | .ok _ => true
  | .error _ => false

theorem jsTruthy_undef : jsTruthy .vUndef = false := rfl

theorem jsTruthy_arr (xs : List JsVal) : jsTruthy (.vArr xs) = true := rfl

theorem jsTruthy_obj (fs : List (String × JsVal)) : jsTruthy (.vObj fs) = true := rfl

theorem jsTruthy_str (s : String) : jsTruthy (.vStr s) = (s != "") := rfl

theorem exceptMapList_ok (f : JsVal → Except String MoveTypeR) :
    ∀ xs : List JsVal, (∀ x ∈ xs, exOk (f x) = true) →
      exOk (exceptMapList f xs) = true := by
  intro xs
  induction xs with
  | nil => intro h; rfl
  | cons x xs ih =>
    intro h
    have hx := h x (List.mem_cons_self x xs)
    have hxs := ih (fun y hy => h y (List.mem_cons_of_mem x hy))
    cases hfx : f x with
    | error e => rw [hfx] at hx; simp [exOk] at hx
    | ok y =>
      cases hrest : exceptMapList f xs with
      | error e => rw [hrest] at hxs; simp [exOk] at hxs
      | ok ys =>
        show exOk (do
            let z ← f x
            let zs ← exceptMapList f xs
            Except.ok (z :: zs)) = true
        rw [hfx, hrest]
        rfl

theorem specRaw_isOk : ∀ (fuel : Nat) (v : JsVal), SpecRawEncoding fuel v →
    exOk (fromTypeStructureRaw fuel v) = true := by
  intro fuel v h
  induction h with
  | str fuel s =>
    show exOk (match primitivesMap s with
        | some p => Except.ok (makeR .vNull .vNull (.vStr p) [] true)
        | none => Except.ok unknownMoveTypeR) = true
    cases primitivesMap s <;> rfl
  | vec fuel t ht iht =>
    show exOk (if jsTruthyOpt (objGet [("Vector", t)] "Vector") = true then do
        let inner ← fromTypeStructureRaw fuel t
        Except.ok (makeR .vNull (.vStr "vector") (.vStr "vector") [inner] true)
      else Except.ok unknownMoveTypeR) = true
    by_cases htr : jsTruthyOpt (objGet [("Vector", t)] "Vector") = true
    · rw [if_pos htr]
      cases hr : fromTypeStructureRaw fuel t with
      | error e => rw [hr] at iht; simp [exOk] at iht
      | ok y => rfl
    · rw [if_neg htr]
      rfl
  | vecLower fuel t => rfl
  | ref fuel t ht iht =>
    show exOk (if jsTruthyOpt (objGet [("Reference", t)] "Reference") = true then do
        let inner ← fromTypeStructureRaw fuel t
        match inner with
        | .mk p m n ts prim _ _ => Except.ok (.mk p m n ts prim true false)
      else Except.ok unknownMoveTypeR) = true
    by_cases htr : jsTruthyOpt (objGet [("Reference", t)] "Reference") = true
    · rw [if_pos htr]
      cases hr : fromTypeStructureRaw fuel t with
      | error e => rw [hr] at iht; simp [exOk] at iht
      | ok y =>
        cases y with
        | mk p m n ts prim r mr => rfl
    · rw [if_neg htr]
      rfl
  | mutRef fuel t ht iht =>
    show exOk (if jsTruthyOpt (objGet [("MutableReference", t)] "MutableReference") = true
      then do
        let inner ← fromTypeStructureRaw fuel t
        match inner with
        | .mk p m n ts prim _ _ => Except.ok (.mk p m n ts prim false true)
      else Except.ok unknownMoveTypeR) = true
    by_cases htr : jsTruthyOpt (objGet [("MutableReference", t)] "MutableReference") = true
    · rw [if_pos htr]
      cases hr : fromTypeStructureRaw fuel t with
      | error e => rw [hr] at iht; simp [exOk] at iht
      | ok y =>
        cases y with
        | mk p m n ts prim r mr => rfl
    · rw [if_neg htr]
      rfl
  | typeParam fuel i => rfl
  | datatype fuel a m n p => rfl
  | structCap fuel a rest => rfl
  | dtInst fuel a rest ts hts ihts =>
    show exOk (do
        let parsed ← exceptMapList (fromTypeStructureRaw fuel) ts
        Except.ok (makeR (.vStr (stripHexPrefix a)) (rest.getD 0 .vUndef)
          (rest.getD 1 .vUndef) parsed false)) = true
    cases hmap : exceptMapList (fromTypeStructureRaw fuel) ts with
    | error e =>
      have hall := exceptMapList_ok (fromTypeStructureRaw fuel) ts ihts
      rw [hmap] at hall; simp [exOk] at hall
    | ok ys => rfl
  | structLower fuel a m n => rfl
  | structLowerArgs fuel a m n ts hts ihts =>
    cases hts0 : ts with
    | nil => subst hts0; rfl
    | cons t0 trest =>
      subst hts0
      show exOk (do
          let parsed ← exceptMapList (fromTypeStructureRaw fuel) (t0 :: trest)
          Except.ok (makeR (.vStr (stripHexPrefix a)) m n parsed false)) = true
      cases hmap : exceptMapList (fromTypeStructureRaw fuel) (t0 :: trest) with
      | error e =>
        have hall := exceptMapList_ok (fromTypeStructureRaw fuel) (t0 :: trest) ihts
        rw [hmap] at hall; simp [exOk] at hall
      | ok ys => rfl
  | direct fuel a m n ha hm hn =>
    have hband : (a != "") = true := bne_iff_ne.mpr ha
    have hc : ((a != "") && jsTruthy m && jsTruthy n) = true := by
      simp only [Bool.and_eq_true]
      exact ⟨⟨hband, hm⟩, hn⟩
    show exOk (if ((a != "") && jsTruthy m && jsTruthy n) = true then
        Except.ok (makeR (.vStr (stripHexPrefix a)) m n [] false)
      else Except.ok unknownMoveTypeR) = true
    rw [if_pos hc]
    rfl
  | directArgs fuel a m n ts ha hm hn hts ihts =>
    have hband : (a != "") = true := bne_iff_ne.mpr ha
    have hc : ((a != "") && jsTruthy m && jsTruthy n) = true := by
      simp only [Bool.and_eq_true]
      exact ⟨⟨hband, hm⟩, hn⟩
    cases hts0 : ts with
    | nil =>
      subst hts0
      show exOk (if ((a != "") && jsTruthy m && jsTruthy n) = true then
          Except.ok (makeR (.vStr (stripHexPrefix a)) m n [] false)
        else Except.ok unknownMoveTypeR) = true
      rw [if_pos hc]
      rfl
    | cons t0 trest =>
      subst hts0
      show exOk (if ((a != "") && jsTruthy m && jsTruthy n) = true then do
          let parsed ← exceptMapList (fromTypeStructureRaw fuel) (t0 :: trest)
          Except.ok (makeR (.vStr (stripHexPrefix a)) m n parsed false)
        else Except.ok unknownMoveTypeR) = true
      rw [if_pos hc]
      cases hmap : exceptMapList (fromTypeStructureRaw fuel) (t0 :: trest) with
      | error e =>
        have hall := exceptMapList_ok (fromTypeStructureRaw fuel) (t0 :: trest) ihts
        rw [hmap] at hall; simp [exOk] at hall
      | ok ys => rfl

theorem raw_unrecognized_obj : ∀ (fuel : Nat) (fields : List (String × JsVal)),
    rawRecognizedGuard fields = false →
    fromTypeStructureRaw (fuel+1) (.vObj fields) = .ok unknownMoveTypeR := by
  intro fuel fields h
  simp only [rawRecognizedGuard, Bool.or_eq_false_iff] at h
  obtain ⟨⟨⟨⟨⟨⟨⟨⟨h1, h2⟩, h3⟩, h4⟩, h5⟩, h6⟩, h7⟩, h8⟩, h9⟩ := h
  have hfind : fields.find? (fun kv => (primitivesMap kv.1).isSome) = none := by
    cases hf : fields.find? (fun kv => (primitivesMap kv.1).isSome) with
    | none => rfl
    | some kv => rw [hf] at h1; simp at h1
  simp [fromTypeStructureRaw, hfind, h2, h3, h4, h5, h6, h7, h8, h9]

theorem raw_nonprim_string : ∀ (fuel : Nat) (s : String), primitivesMap s = none →
    fromTypeStructureRaw (fuel+1) (.vStr s) = .ok unknownMoveTypeR := by
  intro fuel s h
  simp [fromTypeStructureRaw, h]

/-- Claim C8 counterexample: the normalizer is not panic-free on every raw
input.  `\x7bDatatype: 42\x7d` enters the `Datatype` branch (42 is truthy) and the
array destructuring `const [packageAddr, module, name, _] = typeObj.Datatype`
throws a `TypeError` (42 is not iterable); the result is a thrown exception,
not the Unknown sentinel. -/
theorem fromTypeStructureRaw_datatype_throws :
    fromTypeStructureRaw 2 (.vObj [("Datatype", .vNum 42)])
      = .error "TypeError: not iterable" := by rfl

/-- Claim C8 (amended): over the specification-listed encodings (depth bounded
by the fuel index) the normalizer returns a value -- it never throws and never
runs out of fuel -- and on unrecognized shapes (no recognized key fires, a
non-primitive string, a number) it returns the Unknown sentinel
`new MoveType(null, \x27unknown\x27, \x27unknown\x27, [], false)`.  Totality over ALL raw
inputs fails (see the counterexample). -/
theorem fromTypeStructureRaw_amended :
    (∀ (fuel : Nat) (v : JsVal), SpecRawEncoding fuel v →
      exOk (fromTypeStructureRaw fuel v) = true)
    ∧ (∀ (fuel : Nat) (fields : List (String × JsVal)),
        rawRecognizedGuard fields = false →
        fromTypeStructureRaw (fuel+1) (.vObj fields) = .ok unknownMoveTypeR)
    ∧ (∀ (fuel : Nat) (s : String), primitivesMap s = none →
        fromTypeStructureRaw (fuel+1) (.vStr s) = .ok unknownMoveTypeR)
    ∧ (∀ (fuel : Nat) (n : Int),
        fromTypeStructureRaw (fuel+1) (.vNum n) = .ok unknownMoveTypeR) :=
  ⟨specRaw_isOk, raw_unrecognized_obj, raw_nonprim_string, fun _ _ => rfl⟩

/-- Witness for C8: the well-formed encoding
`\x7bDatatype: ["0x2", "coin", "Coin", null]\x7d` normalizes without throwing, and
the unrecognized shape `\x7bUnrecognized: 1\x7d` yields the Unknown sentinel. -/
theorem fromTypeStructureRaw_amended_witness :
    exOk (fromTypeStructureRaw 2 (.vObj [("Datatype",
        .vArr [.vStr "0x2", .vStr "coin", .vStr "Coin", .vNull])])) = true
    ∧ fromTypeStructureRaw 1 (.vObj [("Unrecognized", .vNum 1)])
        = .ok unknownMoveTypeR := by
  constructor
  · exact fromTypeStructureRaw_amended.1 2 _
      (SpecRawEncoding.datatype 1 "0x2" (.vStr "coin") (.vStr "Coin") .vNull)
  · exact fromTypeStructureRaw_amended.2.1 0 [("Unrecognized", .vNum 1)] (by rfl)

end SuiReplay
